import Mathlib

/-!
Shallow embedding of `src/Final_Implementation/banking_system_impl.py`
(class `BankingSystemImpl`), an in-memory event-sourced banking ledger.

Python dictionaries with optional keys become structures with `Option`
fields; the insertion-ordered `whole_accounts` dict becomes an association
list (`dict_set` replaces in place when the key is present, appends
otherwise, exactly like Python dict assignment).  Each public method
becomes a function `arguments → state → result × state`.

Python's `int(amount * 0.02)` in `pay` is floating point: the integer is
converted to an IEEE-754 binary64 value (round to nearest, ties to even),
multiplied by the double closest to 0.02 (which is
5764607523034235 / 2^58, slightly above 1/50), the product is rounded to
the nearest double, and the result truncated toward zero.  That chain is
embedded exactly over `ℚ` below (`cashback_amount`), faithful for every
argument the Python program can evaluate without raising `OverflowError`
(|amount| < 2^1024 ≤ 2^1090).
-/

namespace Banking

/-- Number of binary digits of `n` (0 for 0), by fuel-driven halving; the
fuel only has to exceed the true bit length, and is always called with
enough here. -/
def natBits : ℕ → ℕ → ℕ
  | 0, _ => 0
  | f + 1, n => if n ≤ 1 then n else natBits f (n / 2) + 1

/-- Round `n / 2^k` to the nearest integer, ties to even: the rounding
IEEE-754 binary64 arithmetic performs on a scaled mantissa. -/
def rneN (n k : ℕ) : ℕ :=
  if k = 0 then n
  else if 2 * (n % 2 ^ k) < 2 ^ k then n / 2 ^ k
  else if 2 ^ k < 2 * (n % 2 ^ k) then n / 2 ^ k + 1
  else if n / 2 ^ k % 2 = 0 then n / 2 ^ k else n / 2 ^ k + 1

/-- Round the nonnegative dyadic rational `n / 2^e` to the nearest IEEE-754
binary64 value (round to nearest, ties to even), returned as the numerator
of a dyadic rational over the same denominator `2^e`.  The binade exponent
of `n / 2^e` is `natBits n - 1 - e`, so the 53-bit mantissa to round is
`n / 2^(natBits n - 53)`; when `natBits n ≤ 53` the value is already
representable.  Faithful for `n < 2^1090`, far beyond the arguments for
which Python `float(int)` conversion does not raise `OverflowError`. -/
def roundDoubleN (n : ℕ) : ℕ :=
  if natBits 1100 n ≤ 53 then n
  else rneN n (natBits 1100 n - 53) * 2 ^ (natBits 1100 n - 53)

/-- The integer significand of the IEEE-754 binary64 value written `0.02`:
that double is exactly `5764607523034235 / 2^58`, slightly above `1/50`. -/
def c002num : ℕ := 5764607523034235

/-- `int(a * 0.02)` for a nonnegative Python int `a`: convert `a` to
binary64, multiply by the double `0.02` (exact product `fl(a) * c002num / 2^58`,
then one rounding), truncate.  All arithmetic is the exact dyadic image of
the IEEE-754 operations. -/
def cashback_amountN (a : ℕ) : ℕ :=
  roundDoubleN (roundDoubleN a * c002num) / 2 ^ 58

/-- `int(amount * 0.02)` from `pay` (line 239 of the source).  Conversion,
multiplication and `int(...)` truncation are all symmetric under negation,
so a negative amount is handled through its absolute value. -/
def cashback_amount (amount : ℤ) : ℤ :=
  if 0 ≤ amount then (cashback_amountN amount.toNat : ℤ)
  else -(cashback_amountN (-amount).toNat : ℤ)

/-- One entry of an account's `transactions` list: a Python dict whose
optional keys (`target`, `source`, `related_payment`, `deposited`,
`merged_from`, `merged_at`) become `Option` fields. -/
structure Transaction where
  timestamp : ℤ
  operation : String
  amount : ℤ
  target : Option String := none
  source : Option String := none
  related_payment : Option String := none
  deposited : Option Bool := none
  merged_from : Option String := none
  merged_at : Option ℤ := none
deriving DecidableEq, Repr

/-- One value of the `whole_accounts` dict: `merged_at` is present (`some`)
iff the account has been merged away. -/
structure AccountInfo where
  balance : ℤ
  transactions : List Transaction
  creation_time : ℤ
  merged_at : Option ℤ := none
deriving DecidableEq, Repr

/-- The engine state: the fields of the Python class `BankingSystemImpl`.
`whole_accounts` is an insertion-ordered dict, embedded as an association
list with distinct keys. -/
structure BankingSystemImpl where
  whole_accounts : List (String × AccountInfo)
  payment_counter : ℕ
deriving DecidableEq, Repr

/-- `BankingSystemImpl.__init__`. -/
def initState : BankingSystemImpl := ⟨[], 1⟩

/-- `self.MILLISECONDS_IN_1_DAY`. -/
def MILLISECONDS_IN_1_DAY : ℤ := 86400000

/-- Python dict read: `d[k]` / `k in d`. -/
def dict_get : List (String × AccountInfo) → String → Option AccountInfo
  | [], _ => none
  | (k, v) :: rest, id => if k = id then some v else dict_get rest id

/-- Python dict assignment `d[k] = v`: replaces in place if the key is
present, appends otherwise (insertion order preserved). -/
def dict_set : List (String × AccountInfo) → String → AccountInfo → List (String × AccountInfo)
  | [], id, v => [(id, v)]
  | (k, w) :: rest, id, v =>
    if k = id then (id, v) :: rest else (k, w) :: dict_set rest id v

/-- The maturation condition of `_process_cashbacks` on one transaction:
`operation == "cashback" and timestamp <= t and deposited is False`. -/
def cashbackDue (t : ℤ) (tx : Transaction) : Prop :=
  tx.operation = "cashback" ∧ tx.timestamp ≤ t ∧ tx.deposited = some false

instance (t : ℤ) (tx : Transaction) : Decidable (cashbackDue t tx) := by
  unfold cashbackDue; infer_instance

/-- The flag flip performed by `_process_cashbacks` on one transaction. -/
def sweepTx (t : ℤ) (tx : Transaction) : Transaction :=
  if cashbackDue t tx then { tx with deposited := some true } else tx

/-- The balance credit produced by `_process_cashbacks` for one transaction. -/
def sweepGain (t : ℤ) (tx : Transaction) : ℤ :=
  if cashbackDue t tx then tx.amount else 0

/-- Effect of `_process_cashbacks` on one account: credit every due,
not-yet-deposited cashback and mark it deposited. -/
def sweepAccount (t : ℤ) (acc : AccountInfo) : AccountInfo :=
  { acc with
    balance := acc.balance + (acc.transactions.map (sweepGain t)).sum
    transactions := acc.transactions.map (sweepTx t) }

/-- `_process_cashbacks(timestamp)`: sweeps every account of the dict
(merged ones included — the Python loop does not skip them). -/
def process_cashbacks (t : ℤ) (s : BankingSystemImpl) : BankingSystemImpl :=
  { s with whole_accounts := s.whole_accounts.map fun e => (e.1, sweepAccount t e.2) }

/-- `create_account(timestamp, account_id)`.  Note: the Python method does
NOT call `_process_cashbacks`. -/
def create_account (timestamp : ℤ) (account_id : String) (s : BankingSystemImpl) :
    Bool × BankingSystemImpl :=
  match dict_get s.whole_accounts account_id with
  | some acc =>
    if acc.merged_at = none then (false, s)
    else
      (true, { s with whole_accounts :=
                 dict_set s.whole_accounts account_id ⟨0, [], timestamp, none⟩ })
  | none =>
      (true, { s with whole_accounts :=
                 dict_set s.whole_accounts account_id ⟨0, [], timestamp, none⟩ })

/-- `deposit(timestamp, account_id, amount)`. -/
def deposit (timestamp : ℤ) (account_id : String) (amount : ℤ)
    (s₀ : BankingSystemImpl) : Option ℤ × BankingSystemImpl :=
  let s := process_cashbacks timestamp s₀
  match dict_get s.whole_accounts account_id with
  | none => (none, s)
  | some account =>
    if account.merged_at ≠ none then (none, s)
    else
      let account' : AccountInfo :=
        { account with
          balance := account.balance + amount
          transactions := account.transactions ++
            [{ timestamp := timestamp, operation := "deposit", amount := amount }] }
      (some account'.balance,
        { s with whole_accounts := dict_set s.whole_accounts account_id account' })

/-- `transfer(timestamp, source_account_id, target_account_id, amount)`. -/
def transfer (timestamp : ℤ) (source_account_id target_account_id : String)
    (amount : ℤ) (s₀ : BankingSystemImpl) : Option ℤ × BankingSystemImpl :=
  let s := process_cashbacks timestamp s₀
  match dict_get s.whole_accounts source_account_id,
        dict_get s.whole_accounts target_account_id with
  | some source, some target =>
    if source_account_id = target_account_id then (none, s)
    else if source.merged_at ≠ none ∨ target.merged_at ≠ none then (none, s)
    else if source.balance < amount then (none, s)
    else
      let source' : AccountInfo :=
        { source with
          balance := source.balance - amount
          transactions := source.transactions ++
            [{ timestamp := timestamp, operation := "transfer_out", amount := amount,
               target := some target_account_id }] }
      let target' : AccountInfo :=
        { target with
          balance := target.balance + amount
          transactions := target.transactions ++
            [{ timestamp := timestamp, operation := "transfer_in", amount := amount,
               source := some source_account_id }] }
      (some source'.balance,
        { s with whole_accounts :=
                   dict_set (dict_set s.whole_accounts source_account_id source')
                     target_account_id target' })
  | _, _ => (none, s)

/-- Python `s.startswith(pre)`, character by character (equivalent to
`String.startsWith`, but kernel-reducible). -/
def startswith (s pre : String) : Bool :=
  pre.data.isPrefixOf s.data

/-- The outgoing-spend test of `top_spenders`:
`operation == "transfer_out" or operation.startswith("payment")`. -/
def isOutgoing (tx : Transaction) : Prop :=
  tx.operation = "transfer_out" ∨ startswith tx.operation "payment" = true

instance (tx : Transaction) : Decidable (isOutgoing tx) := by
  unfold isOutgoing; infer_instance

/-- Total outgoing money of one account, as summed by `top_spenders`. -/
def total_outgoing (acc : AccountInfo) : ℤ :=
  (acc.transactions.map fun tx => if isOutgoing tx then tx.amount else 0).sum

/-- The ascending order in which Python sorts the list of
`(-total_outgoing, account_id)` pairs: lexicographic on the pair. -/
def spenderLe (a b : ℤ × String) : Prop :=
  a.1 < b.1 ∨ (a.1 = b.1 ∧ a.2 ≤ b.2)

instance : DecidableRel spenderLe := fun a b => by
  unfold spenderLe; infer_instance

/-- Render one `top_spenders` entry: `f"{acc}({amt})"`. -/
def renderSpender (p : ℤ × String) : String :=
  p.2 ++ "(" ++ toString (-p.1) ++ ")"

/-- `top_spenders(timestamp, n)`.  Python's `list.sort()` on the pairs
`(-total, account_id)` produces the unique ascending reordering because the
account ids (dict keys) are distinct; `List.insertionSort` with the same
total order yields that same list. -/
def top_spenders (timestamp : ℤ) (n : ℕ) (s₀ : BankingSystemImpl) :
    List String × BankingSystemImpl :=
  let s := process_cashbacks timestamp s₀
  let spenders :=
    (s.whole_accounts.filter fun e => e.2.merged_at = none).map
      fun e => (-(total_outgoing e.2), e.1)
  let sorted := List.insertionSort spenderLe spenders
  ((sorted.take n).map renderSpender, s)

/-- `pay(timestamp, account_id, amount)`. -/
def pay (timestamp : ℤ) (account_id : String) (amount : ℤ)
    (s₀ : BankingSystemImpl) : Option String × BankingSystemImpl :=
  let s := process_cashbacks timestamp s₀
  match dict_get s.whole_accounts account_id with
  | none => (none, s)
  | some account =>
    if account.merged_at ≠ none then (none, s)
    else if account.balance < amount then (none, s)
    else
      let payment_id := "payment" ++ toString s.payment_counter
      let account' : AccountInfo :=
        { account with
          balance := account.balance - amount
          transactions := account.transactions ++
            [{ timestamp := timestamp, operation := payment_id, amount := amount },
             { timestamp := timestamp + MILLISECONDS_IN_1_DAY, operation := "cashback",
               amount := cashback_amount amount, related_payment := some payment_id,
               deposited := some false }] }
      (some payment_id,
        { whole_accounts := dict_set s.whole_accounts account_id account'
          payment_counter := s.payment_counter + 1 })

/-- `get_payment_status(timestamp, account_id, payment)`. -/
def get_payment_status (timestamp : ℤ) (account_id payment : String)
    (s₀ : BankingSystemImpl) : Option String × BankingSystemImpl :=
  let s := process_cashbacks timestamp s₀
  match dict_get s.whole_accounts account_id with
  | none => (none, s)
  | some account =>
    if account.merged_at ≠ none then (none, s)
    else
      let payment_found := account.transactions.any fun tx =>
        tx.operation = payment
      let cashback_deposited := account.transactions.any fun tx =>
        tx.operation = "cashback" ∧ tx.related_payment = some payment ∧
          tx.deposited = some true
      if ¬ payment_found then (none, s)
      else (some (if cashback_deposited then "CASHBACK_RECEIVED" else "IN_PROGRESS"), s)

/-- The provenance tagging of `merge_accounts`: copy one transaction of the
absorbed account, overwriting `merged_from` and `merged_at`. -/
def tagMerged (source_id : String) (t : ℤ) (tx : Transaction) : Transaction :=
  { tx with merged_from := some source_id, merged_at := some t }

/-- `merge_accounts(timestamp, account_id_1, account_id_2)`. -/
def merge_accounts (timestamp : ℤ) (account_id_1 account_id_2 : String)
    (s₀ : BankingSystemImpl) : Bool × BankingSystemImpl :=
  let s := process_cashbacks timestamp s₀
  if account_id_1 = account_id_2 then (false, s)
  else
    match dict_get s.whole_accounts account_id_1,
          dict_get s.whole_accounts account_id_2 with
    | some account_1, some account_2 =>
      if account_1.merged_at ≠ none ∨ account_2.merged_at ≠ none then (false, s)
      else
        let account_1' : AccountInfo :=
          { account_1 with
            balance := account_1.balance + account_2.balance
            transactions := account_1.transactions ++
              account_2.transactions.map (tagMerged account_id_2 timestamp) }
        let account_2' : AccountInfo := { account_2 with merged_at := some timestamp }
        (true,
          { s with whole_accounts :=
                     dict_set (dict_set s.whole_accounts account_id_1 account_1')
                       account_id_2 account_2' })
    | _, _ => (false, s)

/-- Signed balance effect of one transaction in `get_balance`'s replay
(the `if`/`elif` chain on `operation`). -/
def txEffect (tx : Transaction) : ℤ :=
  if tx.operation = "deposit" then tx.amount
  else if tx.operation = "transfer_in" then tx.amount
  else if tx.operation = "transfer_out" then -tx.amount
  else if startswith tx.operation "payment" then -tx.amount
  else if tx.operation = "cashback" then tx.amount
  else 0

/-- The skip conditions of `get_balance`'s replay loop: a transaction is
counted iff its own timestamp is at most `time_at` and, when it carries a
merge tag, the merge happened at or before `time_at`. -/
def txCounted (time_at : ℤ) (tx : Transaction) : Prop :=
  tx.timestamp ≤ time_at ∧ ∀ ma ∈ tx.merged_at, ma ≤ time_at

instance (time_at : ℤ) (tx : Transaction) : Decidable (txCounted time_at tx) := by
  unfold txCounted; infer_instance

/-- The replay loop of `get_balance`: sum the signed effects of the counted
transactions, starting from zero. -/
def replayBalance (time_at : ℤ) (txs : List Transaction) : ℤ :=
  (txs.map fun tx => if txCounted time_at tx then txEffect tx else 0).sum

/-- `get_balance(timestamp, account_id, time_at)`. -/
def get_balance (timestamp : ℤ) (account_id : String) (time_at : ℤ)
    (s₀ : BankingSystemImpl) : Option ℤ × BankingSystemImpl :=
  let s := process_cashbacks timestamp s₀
  match dict_get s.whole_accounts account_id with
  | none => (none, s)
  | some account =>
    if time_at < account.creation_time then (none, s)
    else if ∃ m ∈ account.merged_at, m ≤ time_at then (none, s)
    else (some (replayBalance time_at account.transactions), s)

/-- One public operation of the engine, with its arguments. -/
inductive Op
  | create_account (t : ℤ) (id : String)
  | deposit (t : ℤ) (id : String) (amount : ℤ)
  | transfer (t : ℤ) (src tgt : String) (amount : ℤ)
  | top_spenders (t : ℤ) (n : ℕ)
  | pay (t : ℤ) (id : String) (amount : ℤ)
  | get_payment_status (t : ℤ) (id payment : String)
  | merge_accounts (t : ℤ) (a b : String)
  | get_balance (t : ℤ) (id : String) (time_at : ℤ)
deriving DecidableEq

/-- The timestamp argument of a public operation. -/
def opTime : Op → ℤ
  | .create_account t _ => t
  | .deposit t _ _ => t
  | .transfer t _ _ _ => t
  | .top_spenders t _ => t
  | .pay t _ _ => t
  | .get_payment_status t _ _ => t
  | .merge_accounts t _ _ => t
  | .get_balance t _ _ => t

/-- State transition of one public operation (result discarded). -/
def applyOp (s : BankingSystemImpl) : Op → BankingSystemImpl
  | .create_account t id => (create_account t id s).2
  | .deposit t id amount => (deposit t id amount s).2
  | .transfer t src tgt amount => (transfer t src tgt amount s).2
  | .top_spenders t n => (top_spenders t n s).2
  | .pay t id amount => (pay t id amount s).2
  | .get_payment_status t id payment => (get_payment_status t id payment s).2
  | .merge_accounts t a b => (merge_accounts t a b s).2
  | .get_balance t id time_at => (get_balance t id time_at s).2

/-- Reachability along the input contract of the spec (§5): operations are
delivered with non-decreasing timestamps.  `Reaches s T` means the engine,
started fresh, can be in state `s` with every processed operation dated at
most `T`. -/
inductive Reaches : BankingSystemImpl → ℤ → Prop
  | init (T : ℤ) : Reaches initState T
  | step {s : BankingSystemImpl} {T : ℤ} (op : Op) :
      Reaches s T → T ≤ opTime op → Reaches (applyOp s op) (opTime op)

/-- Run a list of operations from the fresh engine. -/
def runOps (ops : List Op) : BankingSystemImpl :=
  ops.foldl applyOp initState

/-- Scan of the whole engine for a cashback transaction that is due at `t`
but not yet deposited. -/
def hasDueCashback (t : ℤ) (l : List (String × AccountInfo)) : Bool :=
  l.any fun p => p.2.transactions.any fun tx => decide (cashbackDue t tx)

/-- No account of `l` holds a due-but-undeposited cashback at `t`. -/
def noDue (t : ℤ) (l : List (String × AccountInfo)) : Prop :=
  ∀ p ∈ l, ∀ tx ∈ p.2.transactions, ¬ cashbackDue t tx

/-- Field-by-field relation between a transaction and its swept image:
everything is preserved except that a `deposited = some false` flag may
flip to `some true`. -/
def sweepTxRel (tx tx' : Transaction) : Prop :=
  tx'.timestamp = tx.timestamp ∧ tx'.operation = tx.operation ∧
  tx'.amount = tx.amount ∧ tx'.target = tx.target ∧ tx'.source = tx.source ∧
  tx'.related_payment = tx.related_payment ∧ tx'.merged_from = tx.merged_from ∧
  tx'.merged_at = tx.merged_at ∧
  (tx'.deposited = tx.deposited ∨
    (tx.deposited = some false ∧ tx'.deposited = some true))

/-- The spec-side ordering of `top_spenders` entries `(total, id)`:
descending total, ties broken by ascending account id. -/
def spenderOrder (a b : ℤ × String) : Prop :=
  b.1 < a.1 ∨ (a.1 = b.1 ∧ a.2 ≤ b.2)

instance : IsTotal (ℤ × String) spenderLe :=
  ⟨fun a b => by
    rcases lt_trichotomy a.1 b.1 with h | h | h
    · exact Or.inl (Or.inl h)
    · rcases le_total a.2 b.2 with h2 | h2
      · exact Or.inl (Or.inr ⟨h, h2⟩)
      · exact Or.inr (Or.inr ⟨h.symm, h2⟩)
    · exact Or.inr (Or.inl h)⟩

instance : IsTrans (ℤ × String) spenderLe :=
  ⟨fun a b c hab hbc => by
    rcases hab with h1 | ⟨h1, h1'⟩ <;> rcases hbc with h2 | ⟨h2, h2'⟩
    · exact Or.inl (h1.trans h2)
    · exact Or.inl (lt_of_lt_of_eq h1 h2)
    · exact Or.inl (lt_of_eq_of_lt h1 h2)
    · exact Or.inr ⟨h1.trans h2, h1'.trans h2'⟩⟩

/-- The part of a transaction's effect already reflected in the stored
`balance` field: a cashback counts only once `deposited`. -/
def depEffect (tx : Transaction) : ℤ :=
  if tx.operation = "cashback" then
    (if tx.deposited = some true then tx.amount else 0)
  else txEffect tx

/-- Signed sum of the deposited effects: the value the stored balance
field must equal. -/
def depSum (txs : List Transaction) : ℤ := (txs.map depEffect).sum

/-- Per-account part of the C1 invariant that needs no clock. -/
def AccInv (acc : AccountInfo) : Prop :=
  acc.balance = depSum acc.transactions ∧
  ∀ tx ∈ acc.transactions, tx.operation = "cashback" → tx.deposited ≠ none

/-- Per-account clock bounds of the C1 invariant at current time `T`. -/
def AccBounds (T : ℤ) (acc : AccountInfo) : Prop :=
  ∀ tx ∈ acc.transactions,
    (tx.operation ≠ "cashback" → tx.timestamp ≤ T) ∧
    (∀ ma ∈ tx.merged_at, ma ≤ T) ∧
    (tx.operation = "cashback" → tx.deposited = some true → tx.timestamp ≤ T)

/-- The C1 invariant of a whole engine state at current time `T`. -/
def Good (T : ℤ) (s : BankingSystemImpl) : Prop :=
  ∀ p ∈ s.whole_accounts, AccInv p.2 ∧ AccBounds T p.2

/-- The operation is one of the four mutating ones (deposit, transfer,
pay, merge_accounts) and succeeds on the given state. -/
def mutatingSuccess (s : BankingSystemImpl) : Op → Prop
  | .deposit t id a => (deposit t id a s).1 ≠ none
  | .transfer t src tgt a => (transfer t src tgt a s).1 ≠ none
  | .pay t id a => (pay t id a s).1 ≠ none
  | .merge_accounts t a b => (merge_accounts t a b s).1 = true
  | _ => False

/-! ### Basic lemmas about the embedded dictionary and the sweep -/

theorem dict_get_set (l : List (String × AccountInfo)) (k k' : String) (v : AccountInfo) :
    dict_get (dict_set l k v) k' = if k = k' then some v else dict_get l k' := by
  induction l with
  | nil => by_cases h : k = k' <;> simp [dict_get, dict_set, h]
  | cons e rest ih =>
    obtain ⟨ek, ev⟩ := e
    by_cases h1 : ek = k
    · subst h1
      by_cases h2 : ek = k' <;> simp [dict_get, dict_set, h2]
    · by_cases h2 : ek = k'
      · subst h2
        have hkk : ¬ k = ek := fun h => h1 h.symm
        simp [dict_get, dict_set, h1, hkk]
      · simp [dict_get, dict_set, h1, h2, ih]

theorem dict_get_process (t : ℤ) (s : BankingSystemImpl) (id : String) :
    dict_get (process_cashbacks t s).whole_accounts id =
      (dict_get s.whole_accounts id).map (sweepAccount t) := by
  show dict_get (s.whole_accounts.map fun e => (e.1, sweepAccount t e.2)) id =
    (dict_get s.whole_accounts id).map (sweepAccount t)
  induction s.whole_accounts with
  | nil => simp [dict_get]
  | cons e rest ih =>
    by_cases h : e.1 = id <;> simp [dict_get, h, ih]

theorem process_counter (t : ℤ) (s : BankingSystemImpl) :
    (process_cashbacks t s).payment_counter = s.payment_counter := rfl

/-! ### C7: no positivity validation on amounts -/

/-- **C7** (amended).  None of `deposit`, `transfer`, `pay` validates the
sign of `amount`: on otherwise-valid active accounts each succeeds for
*every* amount (in particular a non-positive one), `deposit`
unconditionally, `transfer` and `pay` whenever the (post-sweep) source
balance is at least `amount` — which holds trivially for non-positive
amounts and non-negative balances.  The original claim, that a
non-positive amount yields the failure outcome, is refuted by
`C7_counterexample`. -/
theorem C7_no_amount_validation :
    (∀ (s : BankingSystemImpl) (t : ℤ) (id : String) (amount : ℤ) (acc : AccountInfo),
      dict_get (process_cashbacks t s).whole_accounts id = some acc →
      acc.merged_at = none →
      (deposit t id amount s).1 = some (acc.balance + amount)) ∧
    (∀ (s : BankingSystemImpl) (t : ℤ) (src tgt : String) (amount : ℤ)
        (srcA tgtA : AccountInfo),
      src ≠ tgt →
      dict_get (process_cashbacks t s).whole_accounts src = some srcA →
      dict_get (process_cashbacks t s).whole_accounts tgt = some tgtA →
      srcA.merged_at = none → tgtA.merged_at = none →
      amount ≤ srcA.balance →
      (transfer t src tgt amount s).1 = some (srcA.balance - amount)) ∧
    (∀ (s : BankingSystemImpl) (t : ℤ) (id : String) (amount : ℤ) (acc : AccountInfo),
      dict_get (process_cashbacks t s).whole_accounts id = some acc →
      acc.merged_at = none →
      amount ≤ acc.balance →
      (pay t id amount s).1 = some ("payment" ++ toString s.payment_counter)) := by
  refine ⟨?_, ?_, ?_⟩
  · intro s t id amount acc hget hact
    simp [deposit, hget, hact]
  · intro s t src tgt amount srcA tgtA hne hs ht hsa hta hbal
    simp [transfer, hs, ht, hne, hsa, hta, not_lt.mpr hbal]
  · intro s t id amount acc hget hact hbal
    simp [pay, hget, hact, not_lt.mpr hbal, process_counter]

/-- Witness for C7: concrete instances, including amount `0` and `-3`. -/
theorem C7_no_amount_validation_witness :
    (deposit 1 "A" 0 (create_account 0 "A" initState).2).1 = some 0 ∧
    (transfer 1 "A" "B" (-3)
      (create_account 0 "B" (create_account 0 "A" initState).2).2).1 = some 3 := by
  constructor
  · have h := C7_no_amount_validation.1 (create_account 0 "A" initState).2 1 "A" 0
      ⟨0, [], 0, none⟩ (by decide) (by decide)
    simpa using h
  · have h := C7_no_amount_validation.2.1 (create_account 0 "B"
      (create_account 0 "A" initState).2).2 1 "A" "B" (-3)
      ⟨0, [], 0, none⟩ ⟨0, [], 0, none⟩ (by decide) (by decide) (by decide)
      (by decide) (by decide) (by decide)
    simpa using h

/-- **C7** counterexample: with non-positive amounts on valid active
accounts, `deposit`, `transfer` and `pay` all return success outcomes, not
the failure outcome `none` claimed by the spec sentence. -/
theorem C7_counterexample :
    (deposit 1 "A" 0 (create_account 0 "A" initState).2).1 = some 0 ∧
    (deposit 1 "A" (-5) (create_account 0 "A" initState).2).1 = some (-5) ∧
    (transfer 1 "A" "B" (-3)
      (create_account 0 "B" (create_account 0 "A" initState).2).2).1 = some 3 ∧
    (pay 1 "A" 0 (create_account 0 "A" initState).2).1 = some "payment1" := by
  decide

/-! ### C4: failing operations are all-or-nothing -/

/-- **C4** (amended).  Every operation that returns its failure outcome is
all-or-nothing, but the baseline differs for `create_account`: a failing
`deposit`, `transfer`, `pay`, `merge_accounts`, `get_payment_status` or
`get_balance` leaves the engine exactly in the swept pre-call state
(`process_cashbacks` at the call's timestamp, which those methods run
unconditionally first), while a failing `create_account` leaves the
engine exactly in the unswept pre-call state, because `create_account`
never runs the sweep.  In both cases the failing operation itself changes
no balance, appends no transaction, creates no account and merges
nothing.  The original claim — that the post-state always equals the
swept pre-state — is refuted by `C4_counterexample`. -/
theorem C4_failure_all_or_nothing :
    (∀ (s : BankingSystemImpl) (t : ℤ) (id : String) (a : ℤ),
      (deposit t id a s).1 = none → (deposit t id a s).2 = process_cashbacks t s) ∧
    (∀ (s : BankingSystemImpl) (t : ℤ) (src tgt : String) (a : ℤ),
      (transfer t src tgt a s).1 = none →
        (transfer t src tgt a s).2 = process_cashbacks t s) ∧
    (∀ (s : BankingSystemImpl) (t : ℤ) (id : String) (a : ℤ),
      (pay t id a s).1 = none → (pay t id a s).2 = process_cashbacks t s) ∧
    (∀ (s : BankingSystemImpl) (t : ℤ) (a b : String),
      (merge_accounts t a b s).1 = false →
        (merge_accounts t a b s).2 = process_cashbacks t s) ∧
    (∀ (s : BankingSystemImpl) (t : ℤ) (id payment : String),
      (get_payment_status t id payment s).1 = none →
        (get_payment_status t id payment s).2 = process_cashbacks t s) ∧
    (∀ (s : BankingSystemImpl) (t : ℤ) (id : String) (time_at : ℤ),
      (get_balance t id time_at s).1 = none →
        (get_balance t id time_at s).2 = process_cashbacks t s) ∧
    (∀ (s : BankingSystemImpl) (t : ℤ) (id : String),
      (create_account t id s).1 = false → (create_account t id s).2 = s) := by
  refine ⟨?_, ?_, ?_, ?_, ?_, ?_, ?_⟩
  · intro s t id a
    simp only [deposit]
    split
    · simp
    · split_ifs <;> simp
  · intro s t src tgt a
    simp only [transfer]
    split
    · split_ifs <;> simp
    · simp
  · intro s t id a
    simp only [pay]
    split
    · simp
    · split_ifs <;> simp
  · intro s t a b
    simp only [merge_accounts]
    split_ifs with h1
    · simp
    · split
      · split_ifs <;> simp
      · simp
  · intro s t id payment
    simp only [get_payment_status]
    split
    · simp
    · split_ifs <;> simp
  · intro s t id time_at
    simp only [get_balance]
    split
    · simp
    · split_ifs <;> simp
  · intro s t id
    simp only [create_account]
    split
    · split_ifs <;> simp
    · simp

/-- Witness for C4: a deposit to an unknown account fails and leaves the
swept pre-state; a `create_account` on an existing active id fails and
leaves the pre-state untouched. -/
theorem C4_failure_all_or_nothing_witness :
    (deposit 1 "X" 5 initState).2 = process_cashbacks 1 initState ∧
    (create_account 1 "A" (create_account 0 "A" initState).2).2 =
      (create_account 0 "A" initState).2 :=
  ⟨C4_failure_all_or_nothing.1 initState 1 "X" 5 (by decide),
   C4_failure_all_or_nothing.2.2.2.2.2.2 (create_account 0 "A" initState).2 1 "A"
     (by decide)⟩

/-- **C4** counterexample: a failing `create_account` does *not* apply the
cashback sweep.  After `pay(0,"A",50)` a cashback is due at
`t = 86400000`; `create_account(86400000,"A")` fails (the id is active)
and returns the state unchanged, which differs from the swept pre-state
the claim demands (the sweep would deposit the cashback). -/
theorem C4_counterexample :
    (create_account 86400000 "A"
        (runOps [.create_account 0 "A", .deposit 0 "A" 100, .pay 0 "A" 50])).1
      = false ∧
    (create_account 86400000 "A"
        (runOps [.create_account 0 "A", .deposit 0 "A" 100, .pay 0 "A" 50])).2
      ≠ process_cashbacks 86400000
          (runOps [.create_account 0 "A", .deposit 0 "A" 100, .pay 0 "A" 50]) := by
  decide

/-! ### C6: cashback maturation after public operations -/

theorem hasDueCashback_eq_false (t : ℤ) (l : List (String × AccountInfo)) :
    hasDueCashback t l = false ↔ noDue t l := by
  simp [hasDueCashback, noDue, List.any_eq_true]

theorem not_due_sweepTx (t : ℤ) (tx : Transaction) : ¬ cashbackDue t (sweepTx t tx) := by
  unfold sweepTx
  by_cases h : cashbackDue t tx
  · simp only [h, if_true]
    unfold cashbackDue at *
    simp
  · rw [if_neg h]
    exact h

theorem noDue_process (t : ℤ) (s : BankingSystemImpl) :
    noDue t (process_cashbacks t s).whole_accounts := by
  intro p hp tx htx
  simp only [process_cashbacks, List.mem_map] at hp
  obtain ⟨q, _, rfl⟩ := hp
  simp only [sweepAccount, List.mem_map] at htx
  obtain ⟨tx0, _, rfl⟩ := htx
  exact not_due_sweepTx t tx0

theorem mem_dict_set {p : String × AccountInfo} {l : List (String × AccountInfo)}
    {k : String} {v : AccountInfo} :
    p ∈ dict_set l k v → p = (k, v) ∨ p ∈ l := by
  induction l with
  | nil => simp [dict_set]
  | cons e rest ih =>
    obtain ⟨ek, ev⟩ := e
    simp only [dict_set]
    split_ifs with h
    · intro hp
      rcases List.mem_cons.mp hp with h1 | h1
      · exact Or.inl h1
      · exact Or.inr (List.mem_cons_of_mem _ h1)
    · intro hp
      rcases List.mem_cons.mp hp with h1 | h1
      · exact Or.inr (by rw [h1]; exact List.mem_cons_self _ _)
      · rcases ih h1 with h2 | h2
        · exact Or.inl h2
        · exact Or.inr (List.mem_cons_of_mem _ h2)

theorem dict_get_mem {l : List (String × AccountInfo)} {id : String} {acc : AccountInfo} :
    dict_get l id = some acc → (id, acc) ∈ l := by
  induction l with
  | nil => simp [dict_get]
  | cons e rest ih =>
    simp only [dict_get]
    split_ifs with h
    · rintro ⟨rfl⟩
      rw [← h]
      exact List.mem_cons_self _ _
    · intro hg
      exact List.mem_cons_of_mem _ (ih hg)

theorem noDue_dict_set {t : ℤ} {l : List (String × AccountInfo)} {k : String}
    {v : AccountInfo} (hl : noDue t l)
    (hv : ∀ tx ∈ v.transactions, ¬ cashbackDue t tx) :
    noDue t (dict_set l k v) := by
  intro p hp
  rcases mem_dict_set hp with rfl | hp'
  · exact hv
  · exact hl p hp'

theorem payment_ne_cashback (x : String) : "payment" ++ x ≠ "cashback" := by
  intro h
  have h2 : ("payment" ++ x).data = "cashback".data := by rw [h]
  simp [String.data_append] at h2

/-- After any public operation other than `create_account`, no account
holds a due-but-undeposited cashback: the operation's own sweep matured
everything due, the operation's new transactions are either non-cashback
or dated one day in the future, and merge copies come from swept
accounts. -/
theorem noDue_applyOp (s : BankingSystemImpl) (op : Op)
    (hnc : ∀ (t : ℤ) (id : String), op ≠ .create_account t id) :
    noDue (opTime op) (applyOp s op).whole_accounts := by
  cases op with
  | create_account t id => exact absurd rfl (hnc t id)
  | deposit t id a =>
    simp only [applyOp, deposit, opTime]
    split
    · exact noDue_process t s
    · split_ifs
      · exact noDue_process t s
      · refine noDue_dict_set (noDue_process t s) ?_
        next account heq _ =>
        intro tx htx
        rcases List.mem_append.mp htx with h' | h'
        · exact noDue_process t s _ (dict_get_mem heq) tx h'
        · simp only [List.mem_singleton] at h'
          subst h'
          simp [cashbackDue]
  | transfer t src tgt a =>
    simp only [applyOp, transfer, opTime]
    split
    · split_ifs
      · exact noDue_process t s
      · exact noDue_process t s
      · exact noDue_process t s
      · next source target hsrc htgt _ _ _ =>
        refine noDue_dict_set (noDue_dict_set (noDue_process t s) ?_) ?_
        · intro tx htx
          rcases List.mem_append.mp htx with h' | h'
          · exact noDue_process t s _ (dict_get_mem hsrc) tx h'
          · simp only [List.mem_singleton] at h'
            subst h'
            simp [cashbackDue]
        · intro tx htx
          rcases List.mem_append.mp htx with h' | h'
          · exact noDue_process t s _ (dict_get_mem htgt) tx h'
          · simp only [List.mem_singleton] at h'
            subst h'
            simp [cashbackDue]
    · exact noDue_process t s
  | top_spenders t n => exact noDue_process t s
  | pay t id a =>
    simp only [applyOp, pay, opTime]
    split
    · exact noDue_process t s
    · split_ifs
      · exact noDue_process t s
      · exact noDue_process t s
      · next account heq _ _ =>
        refine noDue_dict_set (noDue_process t s) ?_
        intro tx htx
        rcases List.mem_append.mp htx with h' | h'
        · exact noDue_process t s _ (dict_get_mem heq) tx h'
        · simp only [List.mem_cons, List.not_mem_nil, or_false] at h'
          rcases h' with rfl | rfl
          · intro hdue
            exact payment_ne_cashback _ hdue.1
          · intro hdue
            have hts := hdue.2.1
            simp only [MILLISECONDS_IN_1_DAY] at hts
            omega
  | get_payment_status t id payment =>
    simp only [applyOp, get_payment_status, opTime]
    split
    · exact noDue_process t s
    · split_ifs <;> exact noDue_process t s
  | merge_accounts t a b =>
    simp only [applyOp, merge_accounts, opTime]
    split_ifs
    · exact noDue_process t s
    · split
      · split_ifs
        · exact noDue_process t s
        · next account_1 account_2 h1 h2 _ =>
          refine noDue_dict_set (noDue_dict_set (noDue_process t s) ?_) ?_
          · intro tx htx
            rcases List.mem_append.mp htx with h' | h'
            · exact noDue_process t s _ (dict_get_mem h1) tx h'
            · simp only [List.mem_map] at h'
              obtain ⟨tx0, htx0, rfl⟩ := h'
              have h0 := noDue_process t s _ (dict_get_mem h2) tx0 htx0
              simpa [tagMerged, cashbackDue] using h0
          · intro tx htx
            exact noDue_process t s _ (dict_get_mem h2) tx htx
      · exact noDue_process t s
  | get_balance t id time_at =>
    simp only [applyOp, get_balance, opTime]
    split
    · exact noDue_process t s
    · split_ifs <;> exact noDue_process t s

/-- **C6** (amended).  The cashback maturation sweep runs at the start of
every public operation *except `create_account`* (which never calls
`_process_cashbacks`); consequently, immediately after any public
operation other than `create_account` at timestamp `t`, no account —
merged or active — holds a cashback transaction with `timestamp ≤ t` and
`deposited = false`.  The original claim, which includes
`create_account`, is refuted by `C6_counterexample`. -/
theorem C6_sweep_at_every_op (s : BankingSystemImpl) (op : Op)
    (hnc : ∀ (t : ℤ) (id : String), op ≠ .create_account t id) :
    hasDueCashback (opTime op) (applyOp s op).whole_accounts = false := by
  rw [hasDueCashback_eq_false]
  exact noDue_applyOp s op hnc

/-- Witness for C6 at a concrete run: a deposit dated one day after a
payment leaves no due-but-undeposited cashback behind. -/
theorem C6_sweep_at_every_op_witness :
    hasDueCashback 86400000
      (applyOp (runOps [.create_account 0 "A", .deposit 0 "A" 100, .pay 0 "A" 50])
        (.deposit 86400000 "A" 0)).whole_accounts = false :=
  C6_sweep_at_every_op
    (runOps [.create_account 0 "A", .deposit 0 "A" 100, .pay 0 "A" 50])
    (.deposit 86400000 "A" 0) (fun _ _ h => Op.noConfusion h)

/-- **C6** counterexample: `create_account` never runs the sweep, so after
`create_account(86400000,"B")` the cashback scheduled by `pay(0,"A",50)`
(due exactly at `86400000`) is still undeposited. -/
theorem C6_counterexample :
    (create_account 86400000 "B"
        (runOps [.create_account 0 "A", .deposit 0 "A" 100, .pay 0 "A" 50])).1
      = true ∧
    hasDueCashback 86400000
      (create_account 86400000 "B"
        (runOps [.create_account 0 "A", .deposit 0 "A" 100, .pay 0 "A" 50])).2.whole_accounts
      = true := by
  decide

/-! ### C5: what can still happen to a merged account's record -/

theorem sweepAccount_characterization (u : ℤ) (acc : AccountInfo) :
    (sweepAccount u acc).creation_time = acc.creation_time ∧
    (sweepAccount u acc).merged_at = acc.merged_at ∧
    List.Forall₂ sweepTxRel acc.transactions (sweepAccount u acc).transactions := by
  refine ⟨rfl, rfl, ?_⟩
  show List.Forall₂ sweepTxRel acc.transactions (acc.transactions.map (sweepTx u))
  rw [List.forall₂_map_right_iff]
  rw [List.forall₂_same]
  intro tx _
  unfold sweepTx
  by_cases h : cashbackDue u tx
  · rw [if_pos h]
    exact ⟨rfl, rfl, rfl, rfl, rfl, rfl, rfl, rfl, Or.inr ⟨h.2.2, rfl⟩⟩
  · rw [if_neg h]
    exact ⟨rfl, rfl, rfl, rfl, rfl, rfl, rfl, rfl, Or.inl rfl⟩

/-- **C5** (amended).  Once an account's `mergedAt` is set, no subsequent
operation other than a `create_account` reusing the very same id (which
replaces the whole record) touches the record *except the cashback
maturation sweep*: after any such operation the stored record is either
the swept image of the old record or the old record itself (`create_account`
does not sweep).  The sweep preserves `creation_time`, `merged_at`, the
length and every field of every transaction except that it may flip a
`deposited = some false` flag to `some true`, crediting the corresponding
amounts to the stored balance (`sweepAccount`).  The original claim — full
immutability of the record, sweep included — is refuted by
`C5_counterexample`, where the sweep changes a merged account's balance. -/
theorem C5_merged_account_only_swept :
    (∀ (s : BankingSystemImpl) (op : Op) (id : String) (m : ℤ) (acc : AccountInfo),
      dict_get s.whole_accounts id = some acc →
      acc.merged_at = some m →
      (∀ t' : ℤ, op ≠ .create_account t' id) →
      dict_get (applyOp s op).whole_accounts id =
          some (sweepAccount (opTime op) acc) ∨
        dict_get (applyOp s op).whole_accounts id = some acc) ∧
    (∀ (u : ℤ) (acc : AccountInfo),
      (sweepAccount u acc).creation_time = acc.creation_time ∧
      (sweepAccount u acc).merged_at = acc.merged_at ∧
      List.Forall₂ sweepTxRel acc.transactions (sweepAccount u acc).transactions) := by
  refine ⟨?_, sweepAccount_characterization⟩
  intro s op id m acc hget hm hnc
  have hswept : dict_get (process_cashbacks (opTime op) s).whole_accounts id =
      some (sweepAccount (opTime op) acc) := by
    rw [dict_get_process, hget]
    rfl
  cases op with
  | create_account t id' =>
    have hne : id' ≠ id := by
      intro h
      exact hnc t (by rw [h])
    right
    simp only [applyOp, create_account]
    split
    · split_ifs
      · exact hget
      · show dict_get (dict_set s.whole_accounts id' _) id = some acc
        rw [dict_get_set, if_neg hne]
        exact hget
    · show dict_get (dict_set s.whole_accounts id' _) id = some acc
      rw [dict_get_set, if_neg hne]
      exact hget
  | deposit t id' a =>
    left
    simp only [applyOp, deposit, opTime] at hswept ⊢
    split
    · exact hswept
    · next account heq =>
      split_ifs with hmm
      · exact hswept
      · have hne : id' ≠ id := by
          intro h
          subst h
          rw [heq] at hswept
          have hacc : account = sweepAccount t acc := by injection hswept
          have h3 : account.merged_at = some m := by rw [hacc]; exact hm
          simp [h3] at hmm
        show dict_get (dict_set _ id' _) id = _
        rw [dict_get_set, if_neg hne]
        exact hswept
  | transfer t src tgt a =>
    left
    simp only [applyOp, transfer, opTime] at hswept ⊢
    split
    · next source target hsrc htgt =>
      split_ifs with h1 h2 h3
      · exact hswept
      · exact hswept
      · exact hswept
      · push_neg at h2
        have hnes : src ≠ id := by
          intro h
          subst h
          rw [hsrc] at hswept
          have hacc : source = sweepAccount t acc := by injection hswept
          have h4 : source.merged_at = some m := by rw [hacc]; exact hm
          rw [h4] at h2
          simp at h2
        have hnet : tgt ≠ id := by
          intro h
          subst h
          rw [htgt] at hswept
          have hacc : target = sweepAccount t acc := by injection hswept
          have h4 : target.merged_at = some m := by rw [hacc]; exact hm
          rw [h4] at h2
          simp at h2
        show dict_get (dict_set (dict_set _ src _) tgt _) id = _
        rw [dict_get_set, if_neg hnet, dict_get_set, if_neg hnes]
        exact hswept
    · exact hswept
  | top_spenders t n => exact Or.inl hswept
  | pay t id' a =>
    left
    simp only [applyOp, pay, opTime] at hswept ⊢
    split
    · exact hswept
    · next account heq =>
      split_ifs with hmm hbal
      · exact hswept
      · exact hswept
      · have hne : id' ≠ id := by
          intro h
          subst h
          rw [heq] at hswept
          have hacc : account = sweepAccount t acc := by injection hswept
          have h3 : account.merged_at = some m := by rw [hacc]; exact hm
          simp [h3] at hmm
        show dict_get (dict_set _ id' _) id = _
        rw [dict_get_set, if_neg hne]
        exact hswept
  | get_payment_status t id' payment =>
    left
    simp only [applyOp, get_payment_status, opTime] at hswept ⊢
    split
    · exact hswept
    · split_ifs <;> exact hswept
  | merge_accounts t a b =>
    left
    simp only [applyOp, merge_accounts, opTime] at hswept ⊢
    split_ifs with h0
    · exact hswept
    · split
      · next account_1 account_2 h1 h2 =>
        split_ifs with hmm
        · exact hswept
        · push_neg at hmm
          have hnea : a ≠ id := by
            intro h
            subst h
            rw [h1] at hswept
            have hacc : account_1 = sweepAccount t acc := by injection hswept
            have h4 : account_1.merged_at = some m := by rw [hacc]; exact hm
            rw [h4] at hmm
            simp at hmm
          have hneb : b ≠ id := by
            intro h
            subst h
            rw [h2] at hswept
            have hacc : account_2 = sweepAccount t acc := by injection hswept
            have h4 : account_2.merged_at = some m := by rw [hacc]; exact hm
            rw [h4] at hmm
            simp at hmm
          show dict_get (dict_set (dict_set _ a _) b _) id = _
          rw [dict_get_set, if_neg hneb, dict_get_set, if_neg hnea]
          exact hswept
      · exact hswept
  | get_balance t id' time_at =>
    left
    simp only [applyOp, get_balance, opTime] at hswept ⊢
    split
    · exact hswept
    · split_ifs <;> exact hswept

/-- Witness for C5 at a concrete run: after `B` is merged into `A`, a
later `top_spenders` call leaves `B`'s record exactly its swept image. -/
theorem C5_merged_account_only_swept_witness :
    dict_get (applyOp
        (runOps [.create_account 0 "A", .create_account 0 "B",
                 .merge_accounts 1 "A" "B"]) (.top_spenders 2 1)).whole_accounts "B" =
        some (sweepAccount 2 ⟨0, [], 0, some 1⟩) ∨
      dict_get (applyOp
        (runOps [.create_account 0 "A", .create_account 0 "B",
                 .merge_accounts 1 "A" "B"]) (.top_spenders 2 1)).whole_accounts "B" =
        some ⟨0, [], 0, some 1⟩ :=
  C5_merged_account_only_swept.1
    (runOps [.create_account 0 "A", .create_account 0 "B", .merge_accounts 1 "A" "B"])
    (.top_spenders 2 1) "B" 1 ⟨0, [], 0, some 1⟩ (by decide) (by decide)
    (fun _ h => Op.noConfusion h)

/-- **C5** counterexample: `_process_cashbacks` iterates over *all*
accounts, merged ones included.  `B` pays at `t=0` (cashback due at
`86400000`, undeposited), is merged away at `t=1` with stored balance 50,
and a later `deposit` on `A` dated `86400000` runs the sweep, which
changes merged `B`'s stored balance from 50 to 51 — the record is not
immutable. -/
theorem C5_counterexample :
    ((dict_get (runOps [.create_account 0 "A", .create_account 0 "B",
        .deposit 0 "B" 100, .pay 0 "B" 50,
        .merge_accounts 1 "A" "B"]).whole_accounts "B").map
      AccountInfo.merged_at) = some (some 1) ∧
    ((dict_get (runOps [.create_account 0 "A", .create_account 0 "B",
        .deposit 0 "B" 100, .pay 0 "B" 50,
        .merge_accounts 1 "A" "B"]).whole_accounts "B").map
      AccountInfo.balance) = some 50 ∧
    ((dict_get (runOps [.create_account 0 "A", .create_account 0 "B",
        .deposit 0 "B" 100, .pay 0 "B" 50,
        .merge_accounts 1 "A" "B", .deposit 86400000 "A" 0]).whole_accounts "B").map
      AccountInfo.balance) = some 51 := by
  decide

/-! ### C10: id reuse after a merge discards the old record -/

/-- **C10**.  When `create_account(t2, id)` is called while `id` denotes a
merged-away account, it succeeds, the old record (history and `mergedAt`
marker) is replaced by a fresh zero-balance account created at `t2`, and
afterwards `get_balance` on that id fails for every `asOf < t2`: the old
account's pre-merge lifetime is no longer queryable. -/
theorem C10_reuse_discards_history (s : BankingSystemImpl) (id : String)
    (acc : AccountInfo) (m t2 : ℤ)
    (hget : dict_get s.whole_accounts id = some acc)
    (hm : acc.merged_at = some m) :
    (create_account t2 id s).1 = true ∧
    dict_get (create_account t2 id s).2.whole_accounts id = some ⟨0, [], t2, none⟩ ∧
    ∀ (t3 asOf : ℤ), asOf < t2 →
      (get_balance t3 id asOf (create_account t2 id s).2).1 = none := by
  have hc : create_account t2 id s =
      (true,
        { s with whole_accounts := dict_set s.whole_accounts id ⟨0, [], t2, none⟩ }) := by
    simp [create_account, hget, hm]
  refine ⟨by rw [hc], ?_, ?_⟩
  · rw [hc]
    show dict_get (dict_set s.whole_accounts id _) id = _
    rw [dict_get_set, if_pos rfl]
  · intro t3 asOf h
    rw [hc]
    have hacc : dict_get (process_cashbacks t3
        { s with whole_accounts := dict_set s.whole_accounts id ⟨0, [], t2, none⟩ }
          ).whole_accounts id = some (sweepAccount t3 ⟨0, [], t2, none⟩) := by
      rw [dict_get_process]
      show (dict_get (dict_set s.whole_accounts id _) id).map _ = _
      rw [dict_get_set, if_pos rfl]
      rfl
    simp only [get_balance, hacc]
    simp [sweepAccount, h]

/-- Witness for C10: `B` is merged away at `t=1`, recreated at `t=5`; the
new record is fresh and a balance query about `t=4` fails. -/
theorem C10_reuse_discards_history_witness :
    (create_account 5 "B"
      (runOps [.create_account 0 "A", .create_account 0 "B",
               .merge_accounts 1 "A" "B"])).1 = true ∧
    dict_get (create_account 5 "B"
      (runOps [.create_account 0 "A", .create_account 0 "B",
               .merge_accounts 1 "A" "B"])).2.whole_accounts "B" =
      some ⟨0, [], 5, none⟩ ∧
    (get_balance 6 "B" 4 (create_account 5 "B"
      (runOps [.create_account 0 "A", .create_account 0 "B",
               .merge_accounts 1 "A" "B"])).2).1 = none := by
  have h := C10_reuse_discards_history
    (runOps [.create_account 0 "A", .create_account 0 "B", .merge_accounts 1 "A" "B"])
    "B" ⟨0, [], 0, some 1⟩ 1 5 (by decide) (by decide)
  exact ⟨h.1, h.2.1, h.2.2 6 4 (by decide)⟩

/-! ### C3: merge-provenance visibility in `get_balance` -/

/-- **C3**.  In `get_balance`'s replay, a transaction carrying a merge tag
`mergeTime = m` contributes exactly when `m ≤ asOf` and its original
timestamp is `≤ asOf` (first conjunct), and on the spec's scenario —
`B` holds a deposit of 20 made at `t=50` and is merged into `A` at
`t=100` — `get_balance(101,"A",60)` excludes the 20 while
`get_balance` on `A` includes it for every `asOf ≥ 100`. -/
theorem C3_merge_visibility :
    (∀ (pre post : List Transaction) (tx : Transaction) (m asOf : ℤ),
      tx.merged_at = some m →
      replayBalance asOf (pre ++ tx :: post) =
        replayBalance asOf (pre ++ post) +
          (if m ≤ asOf ∧ tx.timestamp ≤ asOf then txEffect tx else 0)) ∧
    (get_balance 101 "A" 60
      (runOps [.create_account 0 "A", .create_account 0 "B",
               .deposit 50 "B" 20, .merge_accounts 100 "A" "B"])).1 = some 0 ∧
    ∀ asOf : ℤ, 100 ≤ asOf →
      (get_balance asOf "A" asOf
        (runOps [.create_account 0 "A", .create_account 0 "B",
                 .deposit 50 "B" 20, .merge_accounts 100 "A" "B"])).1 = some 20 := by
  refine ⟨?_, by decide, ?_⟩
  · intro pre post tx m asOf hma
    have hiff : txCounted asOf tx ↔ (m ≤ asOf ∧ tx.timestamp ≤ asOf) := by
      simp [txCounted, hma, and_comm]
    unfold replayBalance
    rw [List.map_append, List.sum_append, List.map_append, List.sum_append,
      List.map_cons, List.sum_cons, if_congr hiff rfl rfl]
    ring
  · intro asOf h
    have hsc : runOps [.create_account 0 "A", .create_account 0 "B",
        .deposit 50 "B" 20, .merge_accounts 100 "A" "B"] =
        ⟨[("A", ⟨20, [⟨50, "deposit", 20, none, none, none, none, some "B", some 100⟩],
            0, none⟩),
          ("B", ⟨20, [⟨50, "deposit", 20, none, none, none, none, none, none⟩],
            0, some 100⟩)], 1⟩ := by
      decide
    rw [hsc]
    have hacc : dict_get (process_cashbacks asOf
        (⟨[("A", ⟨20, [⟨50, "deposit", 20, none, none, none, none, some "B", some 100⟩],
            0, none⟩),
          ("B", ⟨20, [⟨50, "deposit", 20, none, none, none, none, none, none⟩],
            0, some 100⟩)], 1⟩ : BankingSystemImpl)).whole_accounts "A" =
        some ⟨20, [⟨50, "deposit", 20, none, none, none, none, some "B", some 100⟩],
          0, none⟩ := by
      rw [dict_get_process]
      simp [dict_get, sweepAccount, sweepTx, sweepGain, cashbackDue]
    simp only [get_balance, hacc]
    have h50 : (50:ℤ) ≤ asOf := by omega
    have h0 : ¬ asOf < (0:ℤ) := by omega
    simp [replayBalance, txCounted, txEffect, h, h50, h0]

/-! ### C9: `top_spenders` ordering, truncation and formatting -/

@[simp]
theorem merged_at_sweepAccount (t : ℤ) (acc : AccountInfo) :
    (sweepAccount t acc).merged_at = acc.merged_at := rfl

theorem total_outgoing_sweepAccount (t : ℤ) (acc : AccountInfo) :
    total_outgoing (sweepAccount t acc) = total_outgoing acc := by
  unfold total_outgoing sweepAccount
  simp only [List.map_map]
  congr 1
  refine List.map_congr_left ?_
  intro tx _
  by_cases h : cashbackDue t tx <;> simp [Function.comp, sweepTx, h, isOutgoing]

theorem filter_map_sweep (t : ℤ) (l : List (String × AccountInfo)) :
    ((l.map fun e => (e.1, sweepAccount t e.2)).filter
        fun e => e.2.merged_at = none).map
      (fun e => (total_outgoing e.2, e.1)) =
    (l.filter fun e => e.2.merged_at = none).map
      (fun e => (total_outgoing e.2, e.1)) := by
  induction l with
  | nil => rfl
  | cons e rest ih =>
    by_cases h : e.2.merged_at = none <;>
      simp [List.filter_cons, h, total_outgoing_sweepAccount, ih]

/-- **C9**.  For every engine state, `top_spenders(t, n)` renders, as
`"id(total)"`, the first `n` entries of a list that (a) is a permutation
of the `(outgoing-total, id)` pairs of *all* active (non-merged) accounts
— zero totals included — where the outgoing total sums the amounts of the
account's `transfer_out` and `payment` transactions, and (b) is sorted by
descending total with ties broken by ascending id.  On the spec scenario
(create `A`,`B`; deposit 100 into `A` at `t=3`; transfer 40 `A→B` at
`t=4`) `top_spenders(5,2)` returns `["A(40)", "B(0)"]`. -/
theorem C9_top_spenders_ordering :
    (∀ (s : BankingSystemImpl) (t : ℤ) (n : ℕ), ∃ l : List (ℤ × String),
      l.Perm ((s.whole_accounts.filter fun e => e.2.merged_at = none).map
        fun e => (total_outgoing e.2, e.1)) ∧
      List.Sorted spenderOrder l ∧
      (top_spenders t n s).1 =
        (l.take n).map fun p => p.2 ++ "(" ++ toString p.1 ++ ")") ∧
    (top_spenders 5 2 (runOps
      [.create_account 1 "A", .create_account 2 "B",
       .deposit 3 "A" 100, .transfer 4 "A" "B" 40])).1 = ["A(40)", "B(0)"] := by
  constructor
  · intro s t n
    simp only [top_spenders]
    set spenders := (((process_cashbacks t s).whole_accounts.filter
      fun e => e.2.merged_at = none).map fun e => (-(total_outgoing e.2), e.1)) with hsp
    refine ⟨(List.insertionSort spenderLe spenders).map fun p => (-p.1, p.2),
      ?_, ?_, ?_⟩
    · have hp := (List.perm_insertionSort spenderLe spenders).map
        (fun p : ℤ × String => (-p.1, p.2))
      have he : spenders.map (fun p : ℤ × String => (-p.1, p.2)) =
          (s.whole_accounts.filter fun e => e.2.merged_at = none).map
            fun e => (total_outgoing e.2, e.1) := by
        rw [hsp, List.map_map]
        have hcomp : ((fun p : ℤ × String => (-p.1, p.2)) ∘
            fun e : String × AccountInfo => (-(total_outgoing e.2), e.1)) =
            fun e : String × AccountInfo => (total_outgoing e.2, e.1) := by
          funext e
          simp
        rw [hcomp]
        show (((s.whole_accounts.map fun e => (e.1, sweepAccount t e.2)).filter
          fun e => e.2.merged_at = none).map fun e => (total_outgoing e.2, e.1)) = _
        exact filter_map_sweep t s.whole_accounts
      exact he ▸ hp
    · refine List.pairwise_map.mpr ?_
      have hs := List.sorted_insertionSort spenderLe spenders
      refine hs.imp ?_
      intro a b hab
      rcases hab with h | ⟨h, h'⟩
      · exact Or.inl (neg_lt_neg h)
      · exact Or.inr ⟨congrArg Neg.neg h, h'⟩
    · rw [← List.map_take, List.map_map]
      rfl
  · decide

/-! ### The rounding analysis of `int(amount * 0.02)` -/

theorem natBits_spec :
    ∀ (f n : ℕ), 0 < n → n < 2 ^ f →
      0 < natBits f n ∧ 2 ^ (natBits f n - 1) ≤ n ∧ n < 2 ^ natBits f n := by
  intro f
  induction f with
  | zero =>
    intro n h0 hf
    omega
  | succ f ih =>
    intro n h0 hf
    by_cases h1 : n ≤ 1
    · have hn1 : n = 1 := by omega
      subst hn1
      simp [natBits]
    · have hrec := ih (n / 2) (by omega)
        (by
          have h2 : (2:ℕ) ^ (f + 1) = 2 * 2 ^ f := by ring
          rw [h2] at hf
          exact Nat.div_lt_of_lt_mul hf)
      obtain ⟨hpos, hlo, hhi⟩ := hrec
      have hb : natBits (f + 1) n = natBits f (n / 2) + 1 := by
        simp [natBits, h1]
      set B := natBits f (n / 2) with hB
      refine ⟨by omega, ?_, ?_⟩
      · rw [hb]
        have hx : 2 ^ (B - 1) * 2 ≤ (n / 2) * 2 := Nat.mul_le_mul_right 2 hlo
        have hy : (n / 2) * 2 ≤ n := Nat.div_mul_le_self n 2
        have hz : 2 ^ (B - 1) * 2 = 2 ^ B := by
          rw [← pow_succ]
          congr 1
          omega
        calc 2 ^ (B + 1 - 1) = 2 ^ B := by norm_num
        _ = 2 ^ (B - 1) * 2 := hz.symm
        _ ≤ (n / 2) * 2 := hx
        _ ≤ n := hy
      · rw [hb]
        have hx : n < (n / 2) * 2 + 2 := by omega
        have hy : (n / 2) * 2 + 2 ≤ 2 ^ B * 2 := by
          have := Nat.mul_le_mul_right 2 (by omega : n / 2 + 1 ≤ 2 ^ B)
          omega
        calc n < (n / 2) * 2 + 2 := hx
        _ ≤ 2 ^ B * 2 := hy
        _ = 2 ^ (B + 1) := (pow_succ 2 B).symm

theorem natBits_le {n k : ℕ} (hk : k ≤ 1100) (h : n < 2 ^ k) : natBits 1100 n ≤ k := by
  rcases Nat.eq_zero_or_pos n with rfl | h0
  · have : natBits 1100 0 = 0 := by simp [natBits]
    omega
  · have hs := natBits_spec 1100 n h0
      (lt_of_lt_of_le h (Nat.pow_le_pow_right (by norm_num) hk))
    by_contra hc
    push_neg at hc
    have : (2:ℕ) ^ k ≤ 2 ^ (natBits 1100 n - 1) :=
      Nat.pow_le_pow_right (by norm_num) (by omega)
    omega

theorem rneN_ge_div (n k : ℕ) : n / 2 ^ k ≤ rneN n k := by
  unfold rneN
  split_ifs with h0 h1 h2 h3
  · subst h0
    simp
  · exact le_refl _
  · exact Nat.le_succ _
  · exact le_refl _
  · exact Nat.le_succ _

theorem rneN_upper (n k : ℕ) : 2 * (rneN n k * 2 ^ k) ≤ 2 * n + 2 ^ k := by
  unfold rneN
  split_ifs with h0 h1 h2 h3
  · subst h0
    simp only [pow_zero, mul_one]
    omega
  all_goals
    have hdm := Nat.div_add_mod n (2 ^ k)
    have hmlt : n % 2 ^ k < 2 ^ k := Nat.mod_lt _ (Nat.pos_pow_of_pos k (by norm_num))
    have hq1 : (n / 2 ^ k + 1) * 2 ^ k = n / 2 ^ k * 2 ^ k + 2 ^ k := by ring
    have hqp : 2 ^ k * (n / 2 ^ k) = n / 2 ^ k * 2 ^ k := by ring
    omega

theorem roundDoubleN_lower (n m : ℕ)
    (h : m * 2 ^ (natBits 1100 n - 53) ≤ n) :
    m * 2 ^ (natBits 1100 n - 53) ≤ roundDoubleN n := by
  unfold roundDoubleN
  split_ifs with hL
  · exact h
  · have hj : m ≤ n / 2 ^ (natBits 1100 n - 53) :=
      (Nat.le_div_iff_mul_le (Nat.pos_pow_of_pos _ (by norm_num))).mpr h
    exact Nat.mul_le_mul_right _ (hj.trans (rneN_ge_div n _))

theorem roundDoubleN_upper (n : ℕ) :
    2 * roundDoubleN n ≤ 2 * n + 2 ^ (natBits 1100 n - 53) := by
  unfold roundDoubleN
  split_ifs with hL
  · exact Nat.le_add_right _ _
  · exact rneN_upper n _

theorem roundDoubleN_id {a : ℕ} (h : a ≤ 2 ^ 53) : roundDoubleN a = a := by
  rcases eq_or_lt_of_le h with rfl | hlt
  · decide
  · have hL : natBits 1100 a ≤ 53 := natBits_le (by norm_num) hlt
    unfold roundDoubleN
    rw [if_pos hL]

/-- For every amount up to `2^53` (the last integer before binary64 loses
integer precision) the Python float computation `int(amount * 0.02)` agrees
with exact truncating integer arithmetic `amount * 2 // 100`. -/
theorem cashback_amountN_eq_floor {a : ℕ} (ha : a ≤ 2 ^ 53) :
    cashback_amountN a = 2 * a / 100 := by
  rcases Nat.eq_zero_or_pos a with rfl | h0
  · decide
  · unfold cashback_amountN
    rw [roundDoubleN_id ha]
    have hk100 : 2 * a / 100 = a / 50 := by
      have : (100:ℕ) = 2 * 50 := by norm_num
      rw [this, Nat.mul_div_mul_left a 50 (by norm_num)]
    rw [hk100]
    set N := a * c002num with hNdef
    set k := a / 50 with hkdef
    have hc50 : c002num * 50 = 2 ^ 58 + 6 := by decide
    have h50N : 50 * N = a * 2 ^ 58 + 6 * a := by
      calc 50 * N = a * (c002num * 50) := by rw [hNdef]; ring
      _ = a * (2 ^ 58 + 6) := by rw [hc50]
      _ = a * 2 ^ 58 + 6 * a := by ring
    have ha50 : 50 * k ≤ a := by
      have := Nat.div_mul_le_self a 50
      omega
    have ha49 : a ≤ 50 * k + 49 := by
      have hdm := Nat.div_add_mod a 50
      have : a % 50 < 50 := Nat.mod_lt _ (by norm_num)
      omega
    have hNlt : N < 2 ^ 106 := by
      have h1 : N ≤ 2 ^ 53 * c002num := Nat.mul_le_mul_right _ ha
      have h2 : (2:ℕ) ^ 53 * c002num < 2 ^ 106 := by decide
      omega
    have hL : natBits 1100 N ≤ 106 := natBits_le (by norm_num) hNlt
    set j := natBits 1100 N - 53 with hjdef
    have hj53 : j ≤ 53 := by omega
    have h2j : (2:ℕ) ^ j ≤ 2 ^ 53 := Nat.pow_le_pow_right (by norm_num) hj53
    -- lower bound: k * 2^58 is representable and lies below the product
    have hkN : k * 2 ^ 58 ≤ N := by
      have h1 : 50 * (k * 2 ^ 58) ≤ 50 * N := by
        calc 50 * (k * 2 ^ 58) = (50 * k) * 2 ^ 58 := by ring
        _ ≤ a * 2 ^ 58 := Nat.mul_le_mul_right _ ha50
        _ ≤ 50 * N := by omega
      exact Nat.le_of_mul_le_mul_left h1 (by norm_num)
    have hsplit : k * 2 ^ (58 - j) * 2 ^ j = k * 2 ^ 58 := by
      rw [mul_assoc, ← pow_add, Nat.sub_add_cancel (by omega : j ≤ 58)]
    have hlow : k * 2 ^ 58 ≤ roundDoubleN N := by
      have := roundDoubleN_lower N (k * 2 ^ (58 - j))
        (by rw [← hjdef, hsplit]; exact hkN)
      rw [← hjdef, hsplit] at this
      exact this
    -- upper bound: the rounded product stays below (k+1) * 2^58
    have hup : 2 * roundDoubleN N ≤ 2 * N + 2 ^ j := by
      have := roundDoubleN_upper N
      rw [← hjdef] at this
      exact this
    have hX : (2:ℕ) ^ 58 = 288230376151711744 := by norm_num
    have hY : (2:ℕ) ^ 53 = 9007199254740992 := by norm_num
    have hhi : roundDoubleN N < (k + 1) * 2 ^ 58 := by
      rw [hX] at hlow h50N ⊢
      rw [hY] at h2j
      omega
    exact Nat.div_eq_of_lt_le hlow hhi

/-! ### C2: the scheduled cashback transaction -/

/-- **C2** (amended).  Every successful `pay(t, id, amount)` appends a
cashback transaction with timestamp exactly `t + ONE_DAY` (86400000 ms)
and amount `int(amount * 0.02)` computed in IEEE-754 binary64 arithmetic
(`cashback_amount`); that amount equals the exact integer
`floor(amount * 2 / 100)` for every `0 ≤ amount ≤ 2^53`, but *not* for
every value of amount — binary64 rounding makes the two differ above
`2^53`, see `C2_counterexample`. -/
theorem C2_cashback_schedule :
    (∀ (s : BankingSystemImpl) (t : ℤ) (id : String) (amount : ℤ),
      (pay t id amount s).1 ≠ none →
      ∃ acc rest, dict_get (pay t id amount s).2.whole_accounts id = some acc ∧
        acc.transactions = rest ++
          [⟨t, "payment" ++ toString s.payment_counter, amount,
            none, none, none, none, none, none⟩,
           ⟨t + 86400000, "cashback", cashback_amount amount, none, none,
            some ("payment" ++ toString s.payment_counter), some false, none, none⟩]) ∧
    (∀ a : ℕ, a ≤ 2 ^ 53 → cashback_amountN a = 2 * a / 100) := by
  refine ⟨?_, fun a ha => cashback_amountN_eq_floor ha⟩
  intro s t id amount
  simp only [pay]
  split
  · intro h
    exact absurd rfl h
  · next account heq =>
    split_ifs with h1 h2
    · intro h
      exact absurd rfl h
    · intro h
      exact absurd rfl h
    · intro _
      refine ⟨{ account with
          balance := account.balance - amount
          transactions := account.transactions ++
            [{ timestamp := t, operation := "payment" ++ toString s.payment_counter,
               amount := amount },
             { timestamp := t + MILLISECONDS_IN_1_DAY, operation := "cashback",
               amount := cashback_amount amount,
               related_payment := some ("payment" ++ toString s.payment_counter),
               deposited := some false }] },
        account.transactions, ?_, rfl⟩
      show dict_get (dict_set _ id _) id = _
      rw [dict_get_set, if_pos rfl]
      rfl

/-- Witness for C2: a payment of 100 at `t = 5` schedules its cashback at
`86400005` for `cashback_amount 100` (which the second conjunct, applied
at 50, ties to exact arithmetic). -/
theorem C2_cashback_schedule_witness :
    (∃ acc rest,
      dict_get (pay 5 "A" 100
        (runOps [.create_account 0 "A", .deposit 0 "A" 100])).2.whole_accounts "A" =
          some acc ∧
      acc.transactions = rest ++
        [⟨5, "payment1", 100, none, none, none, none, none, none⟩,
         ⟨5 + 86400000, "cashback", cashback_amount 100, none, none,
          some "payment1", some false, none, none⟩]) ∧
    cashback_amountN 50 = 2 * 50 / 100 :=
  ⟨C2_cashback_schedule.1 (runOps [.create_account 0 "A", .deposit 0 "A" 100])
      5 "A" 100 (by decide),
   C2_cashback_schedule.2 50 (by decide)⟩

set_option maxRecDepth 1000000 in
/-- **C2** counterexample: at `amount = 9007199254740999` (just above
`2^53`) the scheduled cashback amount is `180143985094820`, while exact
integer arithmetic `floor(amount * 2 / 100)` gives `180143985094819`:
binary64 rounding of `amount * 0.02` differs from the claim's exact
formula.  The timestamp (`1 + 86400000`) is as claimed. -/
theorem C2_counterexample :
    (pay 1 "A" 9007199254740999
      (runOps [.create_account 0 "A", .deposit 0 "A" 9007199254741000])).1 =
      some "payment1" ∧
    (dict_get (pay 1 "A" 9007199254740999
      (runOps [.create_account 0 "A",
               .deposit 0 "A" 9007199254741000])).2.whole_accounts "A").map
        AccountInfo.transactions =
      some [⟨0, "deposit", 9007199254741000, none, none, none, none, none, none⟩,
            ⟨1, "payment1", 9007199254740999, none, none, none, none, none, none⟩,
            ⟨86400001, "cashback", 180143985094820, none, none, some "payment1",
             some false, none, none⟩] ∧
    (9007199254740999 * 2 : ℤ) / 100 = 180143985094819 ∧
    (180143985094820 : ℤ) ≠ 180143985094819 := by
  decide

/-! ### C8: the pay / get_payment_status round trip -/

@[simp]
theorem sweepTx_operation (t : ℤ) (tx : Transaction) :
    (sweepTx t tx).operation = tx.operation := by
  unfold sweepTx
  split_ifs <;> rfl

@[simp]
theorem sweepTx_related (t : ℤ) (tx : Transaction) :
    (sweepTx t tx).related_payment = tx.related_payment := by
  unfold sweepTx
  split_ifs <;> rfl

@[simp]
theorem sweepTx_amount (t : ℤ) (tx : Transaction) :
    (sweepTx t tx).amount = tx.amount := by
  unfold sweepTx
  split_ifs <;> rfl

theorem get_payment_status_state (t : ℤ) (id payment : String)
    (s : BankingSystemImpl) :
    (get_payment_status t id payment s).2 = process_cashbacks t s := by
  simp only [get_payment_status]
  split
  · rfl
  · split_ifs <;> rfl

/-- **C8** (amended).  On an account that is active after the sweep at `t`,
holds at least `amount`, and has never seen the identifier `"payment1"`,
and when the engine's payment counter is still 1 (no earlier successful
payment), `pay(t, id, amount)` returns `"payment1"` and debits `amount`;
every `get_payment_status` dated before `t + 86400000` reports
`IN_PROGRESS`; every one dated at or after `t + 86400000` reports
`CASHBACK_RECEIVED`, and — provided the account had no other undeposited
cashback — the stored balance then exceeds the just-after-payment balance
by exactly `cashback_amount amount`, which equals `floor(amount * 0.02)`
for `0 ≤ amount ≤ 2^53` (final conjunct), but not for every amount
(see `C8_counterexample`). -/
theorem C8_pay_status_roundtrip
    (s : BankingSystemImpl) (t : ℤ) (id : String) (amount : ℤ) (acc : AccountInfo)
    (hacc : dict_get (process_cashbacks t s).whole_accounts id = some acc)
    (hact : acc.merged_at = none)
    (hbal : amount ≤ acc.balance)
    (hctr : s.payment_counter = 1)
    (hfresh : ∀ tx ∈ acc.transactions,
      tx.operation ≠ "payment1" ∧ tx.related_payment ≠ some "payment1") :
    (pay t id amount s).1 = some "payment1" ∧
    (dict_get (pay t id amount s).2.whole_accounts id).map AccountInfo.balance =
      some (acc.balance - amount) ∧
    (∀ t2 : ℤ, t2 < t + 86400000 →
      (get_payment_status t2 id "payment1" (pay t id amount s).2).1 =
        some "IN_PROGRESS") ∧
    (∀ t2 : ℤ, t + 86400000 ≤ t2 →
      (get_payment_status t2 id "payment1" (pay t id amount s).2).1 =
        some "CASHBACK_RECEIVED" ∧
      ((∀ tx ∈ acc.transactions, tx.operation = "cashback" →
          tx.deposited = some true) →
        (dict_get (get_payment_status t2 id "payment1"
            (pay t id amount s).2).2.whole_accounts id).map AccountInfo.balance =
          some (acc.balance - amount + cashback_amount amount))) ∧
    (∀ a : ℕ, a ≤ 2 ^ 53 → cashback_amountN a = 2 * a / 100) := by
  have hpay : pay t id amount s =
      (some "payment1",
        { whole_accounts := dict_set (process_cashbacks t s).whole_accounts id
            { acc with
              balance := acc.balance - amount
              transactions := acc.transactions ++
                [{ timestamp := t, operation := "payment1", amount := amount },
                 { timestamp := t + MILLISECONDS_IN_1_DAY, operation := "cashback",
                   amount := cashback_amount amount,
                   related_payment := some "payment1", deposited := some false }] }
          payment_counter := 2 }) := by
    have hp1 : "payment" ++ toString (1:ℕ) = "payment1" := rfl
    simp [pay, hacc, hact, not_lt.mpr hbal, process_counter, hctr, hp1]
  set ptx : Transaction :=
    { timestamp := t, operation := "payment1", amount := amount } with hptx
  set cbtx : Transaction :=
    { timestamp := t + MILLISECONDS_IN_1_DAY, operation := "cashback",
      amount := cashback_amount amount,
      related_payment := some "payment1", deposited := some false } with hcbtx
  set acc' : AccountInfo :=
    { acc with
      balance := acc.balance - amount
      transactions := acc.transactions ++ [ptx, cbtx] } with hacc'
  have hget1 : ∀ t2 : ℤ,
      dict_get (process_cashbacks t2 (pay t id amount s).2).whole_accounts id =
        some (sweepAccount t2 acc') := by
    intro t2
    rw [hpay, dict_get_process]
    show (dict_get (dict_set _ id acc') id).map _ = _
    rw [dict_get_set, if_pos rfl]
    rfl
  have hmerged' : ∀ t2 : ℤ, (sweepAccount t2 acc').merged_at = none := fun _ => hact
  have hfound : ∀ t2 : ℤ,
      ((sweepAccount t2 acc').transactions.any fun tx =>
        tx.operation = "payment1") = true := by
    intro t2
    rw [List.any_eq_true]
    refine ⟨sweepTx t2 ptx, ?_, ?_⟩
    · show sweepTx t2 ptx ∈ (acc.transactions ++ [ptx, cbtx]).map (sweepTx t2)
      exact List.mem_map_of_mem _ (by simp)
    · simp
  refine ⟨by rw [hpay], ?_, ?_, ?_, fun a ha => cashback_amountN_eq_floor ha⟩
  · rw [hpay]
    show (dict_get (dict_set _ id acc') id).map _ = _
    rw [dict_get_set, if_pos rfl]
    rfl
  · intro t2 ht2
    simp only [get_payment_status, hget1 t2]
    rw [if_neg (by simp [hact])]
    rw [if_neg (by simp [hfound t2])]
    have hcd : ((sweepAccount t2 acc').transactions.any fun tx =>
        tx.operation = "cashback" ∧ tx.related_payment = some "payment1" ∧
          tx.deposited = some true) = false := by
      rw [List.any_eq_false]
      intro tx' htx'
      rcases List.mem_map.mp htx' with ⟨tx0, htx0, rfl⟩
      simp only [decide_eq_true_eq]
      rintro ⟨hop, hrel, hdep⟩
      rw [sweepTx_related] at hrel
      rcases List.mem_append.mp htx0 with h' | h'
      · exact (hfresh tx0 h').2 hrel
      · simp only [List.mem_cons, List.not_mem_nil, or_false] at h'
        rcases h' with rfl | rfl
        · rw [hptx] at hrel
          simp at hrel
        · have hnd : ¬ cashbackDue t2 cbtx := by
            rintro ⟨-, hts, -⟩
            rw [hcbtx] at hts
            simp only [MILLISECONDS_IN_1_DAY] at hts
            omega
          have hsw : sweepTx t2 cbtx = cbtx := by
            unfold sweepTx
            rw [if_neg hnd]
          rw [hsw, hcbtx] at hdep
          simp at hdep
    rw [hcd]
    simp
  · intro t2 ht2
    have hdue : cashbackDue t2 cbtx := by
      refine ⟨by rw [hcbtx], ?_, by rw [hcbtx]⟩
      rw [hcbtx]
      show t + MILLISECONDS_IN_1_DAY ≤ t2
      simp only [MILLISECONDS_IN_1_DAY]
      omega
    constructor
    · simp only [get_payment_status, hget1 t2]
      rw [if_neg (by simp [hact])]
      rw [if_neg (by simp [hfound t2])]
      have hcd : ((sweepAccount t2 acc').transactions.any fun tx =>
          tx.operation = "cashback" ∧ tx.related_payment = some "payment1" ∧
            tx.deposited = some true) = true := by
        rw [List.any_eq_true]
        refine ⟨sweepTx t2 cbtx, ?_, ?_⟩
        · show sweepTx t2 cbtx ∈ (acc.transactions ++ [ptx, cbtx]).map (sweepTx t2)
          exact List.mem_map_of_mem _ (by simp)
        · have hsw : sweepTx t2 cbtx = { cbtx with deposited := some true } := by
            unfold sweepTx
            rw [if_pos hdue]
          rw [hsw, hcbtx]
          simp
      rw [hcd]
      simp
    · intro hnopend
      rw [get_payment_status_state, hget1 t2]
      refine congrArg some ?_
      show acc'.balance + ((acc.transactions ++ [ptx, cbtx]).map (sweepGain t2)).sum =
        acc.balance - amount + cashback_amount amount
      rw [List.map_append, List.sum_append]
      have hzero : (acc.transactions.map (sweepGain t2)).sum = 0 := by
        apply List.sum_eq_zero
        intro x hx
        rcases List.mem_map.mp hx with ⟨tx0, htx0, rfl⟩
        unfold sweepGain
        rw [if_neg]
        rintro ⟨hop, -, hdep⟩
        rw [hnopend tx0 htx0 hop] at hdep
        simp at hdep
      have hgp : sweepGain t2 ptx = 0 := by
        unfold sweepGain
        rw [if_neg]
        rintro ⟨hop, -, -⟩
        rw [hptx] at hop
        simp at hop
      have hgc : sweepGain t2 cbtx = cashback_amount amount := by
        unfold sweepGain
        rw [if_pos hdue, hcbtx]
      have hb : acc'.balance = acc.balance - amount := rfl
      rw [hzero]
      simp only [List.map_cons, List.map_nil, List.sum_cons, List.sum_nil, hgp, hgc, hb]
      ring

/-- Witness for C8 on the spec scenario: `pay(10,"A",50)` returns
`"payment1"`, the status is `IN_PROGRESS` at `t=100` and
`CASHBACK_RECEIVED` at `t=86400010`, when the balance is up by
`cashback_amount 50` (with `cashback_amountN 50 = 1` by the last
conjunct of the theorem). -/
theorem C8_pay_status_roundtrip_witness :
    (pay 10 "A" 50 (runOps [.create_account 0 "A", .deposit 0 "A" 100])).1 =
      some "payment1" ∧
    (get_payment_status 100 "A" "payment1"
      (pay 10 "A" 50 (runOps [.create_account 0 "A", .deposit 0 "A" 100])).2).1 =
      some "IN_PROGRESS" ∧
    (get_payment_status 86400010 "A" "payment1"
      (pay 10 "A" 50 (runOps [.create_account 0 "A", .deposit 0 "A" 100])).2).1 =
      some "CASHBACK_RECEIVED" ∧
    (dict_get (get_payment_status 86400010 "A" "payment1"
      (pay 10 "A" 50 (runOps [.create_account 0 "A",
        .deposit 0 "A" 100])).2).2.whole_accounts "A").map AccountInfo.balance =
      some (100 - 50 + cashback_amount 50) ∧
    cashback_amountN 50 = 2 * 50 / 100 := by
  have h := C8_pay_status_roundtrip
    (runOps [.create_account 0 "A", .deposit 0 "A" 100]) 10 "A" 50
    ⟨100, [⟨0, "deposit", 100, none, none, none, none, none, none⟩], 0, none⟩
    (by decide) (by decide) (by decide) (by decide) (by decide)
  exact ⟨h.1, h.2.2.1 100 (by decide), (h.2.2.2.1 86400010 (by decide)).1,
    (h.2.2.2.1 86400010 (by decide)).2 (by decide), h.2.2.2.2 50 (by decide)⟩

set_option maxRecDepth 1000000 in
/-- **C8** counterexample: the round trip at `amount = 9007199254741099`
(a bit above `2^53`) otherwise behaves as claimed, but the balance after
`CASHBACK_RECEIVED` exceeds the just-after-payment balance by
`180143985094822`, not by the exact `floor(amount * 0.02) =
180143985094821` the claim states. -/
theorem C8_counterexample :
    (pay 1 "A" 9007199254741099
      (runOps [.create_account 0 "A", .deposit 0 "A" 9007199254741099])).1 =
      some "payment1" ∧
    (dict_get (pay 1 "A" 9007199254741099
      (runOps [.create_account 0 "A",
        .deposit 0 "A" 9007199254741099])).2.whole_accounts "A").map
      AccountInfo.balance = some 0 ∧
    (get_payment_status 86400001 "A" "payment1"
      (pay 1 "A" 9007199254741099
        (runOps [.create_account 0 "A", .deposit 0 "A" 9007199254741099])).2).1 =
      some "CASHBACK_RECEIVED" ∧
    (dict_get (get_payment_status 86400001 "A" "payment1"
      (pay 1 "A" 9007199254741099
        (runOps [.create_account 0 "A",
          .deposit 0 "A" 9007199254741099])).2).2.whole_accounts "A").map
      AccountInfo.balance = some 180143985094822 ∧
    (9007199254741099 * 2 : ℤ) / 100 = 180143985094821 ∧
    (180143985094822 : ℤ) ≠ 180143985094821 := by
  decide

/-! ### C1: the live balance field tracks the replay reconstruction

The invariant: every stored balance is the signed sum of its transactions
counting a cashback only once deposited (`AccInv`), and — after operations
with non-decreasing timestamps, the current time being `T` — every
non-cashback transaction and every deposited cashback is dated `≤ T`, and
every merge tag is `≤ T` (`AccBounds`). -/

theorem depSum_append (l₁ l₂ : List Transaction) :
    depSum (l₁ ++ l₂) = depSum l₁ + depSum l₂ := by
  unfold depSum
  rw [List.map_append, List.sum_append]

theorem payment_ne_deposit (x : String) : "payment" ++ x ≠ "deposit" := by
  intro h
  have h2 : ("payment" ++ x).data = "deposit".data := by rw [h]
  simp [String.data_append] at h2

theorem payment_ne_transfer_in (x : String) : "payment" ++ x ≠ "transfer_in" := by
  intro h
  have h2 : ("payment" ++ x).data = "transfer_in".data := by rw [h]
  simp [String.data_append] at h2

theorem payment_ne_transfer_out (x : String) : "payment" ++ x ≠ "transfer_out" := by
  intro h
  have h2 : ("payment" ++ x).data = "transfer_out".data := by rw [h]
  simp [String.data_append] at h2

theorem startswith_payment (x : String) :
    startswith ("payment" ++ x) "payment" = true := by
  unfold startswith
  rw [String.data_append]
  rw [List.isPrefixOf_iff_prefix]
  exact List.prefix_append _ _

theorem depEffect_payment (x : String) (tx : Transaction)
    (hop : tx.operation = "payment" ++ x) : depEffect tx = -tx.amount := by
  unfold depEffect txEffect
  rw [hop]
  rw [if_neg (payment_ne_cashback x), if_neg (payment_ne_deposit x),
    if_neg (payment_ne_transfer_in x), if_neg (payment_ne_transfer_out x),
    if_pos (startswith_payment x)]

theorem depEffect_sweepTx (t : ℤ) (tx : Transaction) :
    depEffect (sweepTx t tx) = depEffect tx + sweepGain t tx := by
  by_cases h : cashbackDue t tx
  · have hs : sweepTx t tx = { tx with deposited := some true } := by
      unfold sweepTx
      rw [if_pos h]
    have hg : sweepGain t tx = tx.amount := by
      unfold sweepGain
      rw [if_pos h]
    rw [hs, hg]
    simp only [depEffect]
    simp [h.1, h.2.2]
  · have hs : sweepTx t tx = tx := by
      unfold sweepTx
      rw [if_neg h]
    have hg : sweepGain t tx = 0 := by
      unfold sweepGain
      rw [if_neg h]
    rw [hs, hg, add_zero]

theorem depSum_cons (tx : Transaction) (txs : List Transaction) :
    depSum (tx :: txs) = depEffect tx + depSum txs := by
  unfold depSum
  rw [List.map_cons, List.sum_cons]

theorem depSum_sweep (t : ℤ) (txs : List Transaction) :
    depSum (txs.map (sweepTx t)) = depSum txs + (txs.map (sweepGain t)).sum := by
  induction txs with
  | nil => rfl
  | cons tx rest ih =>
    rw [List.map_cons, depSum_cons, depEffect_sweepTx, depSum_cons,
      List.map_cons, List.sum_cons]
    omega

@[simp]
theorem sweepTx_timestamp (t : ℤ) (tx : Transaction) :
    (sweepTx t tx).timestamp = tx.timestamp := by
  unfold sweepTx
  split_ifs <;> rfl

@[simp]
theorem sweepTx_merged_at (t : ℤ) (tx : Transaction) :
    (sweepTx t tx).merged_at = tx.merged_at := by
  unfold sweepTx
  split_ifs <;> rfl

theorem AccInv_sweepAccount (t : ℤ) (acc : AccountInfo) (h : AccInv acc) :
    AccInv (sweepAccount t acc) := by
  obtain ⟨hbal, hwf⟩ := h
  constructor
  · show acc.balance + (acc.transactions.map (sweepGain t)).sum =
      depSum (acc.transactions.map (sweepTx t))
    rw [depSum_sweep, hbal]
  · intro tx' htx'
    rcases List.mem_map.mp htx' with ⟨tx0, htx0, rfl⟩
    rw [sweepTx_operation]
    intro hcb
    unfold sweepTx
    split_ifs with hd
    · simp
    · exact hwf tx0 htx0 hcb

theorem AccBounds_sweepAccount {T t : ℤ} (acc : AccountInfo)
    (h : AccBounds T acc) (hTt : T ≤ t) : AccBounds t (sweepAccount t acc) := by
  intro tx' htx'
  rcases List.mem_map.mp htx' with ⟨tx0, htx0, rfl⟩
  obtain ⟨h1, h2, h3⟩ := h tx0 htx0
  refine ⟨?_, ?_, ?_⟩
  · rw [sweepTx_operation, sweepTx_timestamp]
    intro hne
    exact le_trans (h1 hne) hTt
  · rw [sweepTx_merged_at]
    intro ma hma
    exact le_trans (h2 ma hma) hTt
  · rw [sweepTx_operation, sweepTx_timestamp]
    intro hcb
    by_cases hd : cashbackDue t tx0
    · intro _
      exact hd.2.1
    · have hs : sweepTx t tx0 = tx0 := by
        unfold sweepTx
        rw [if_neg hd]
      rw [hs]
      intro hdep
      exact le_trans (h3 hcb hdep) hTt

theorem Good_process {T t : ℤ} {s : BankingSystemImpl} (h : Good T s)
    (hTt : T ≤ t) : Good t (process_cashbacks t s) := by
  intro p hp
  simp only [process_cashbacks, List.mem_map] at hp
  obtain ⟨q, hq, rfl⟩ := hp
  obtain ⟨hi, hb⟩ := h q hq
  exact ⟨AccInv_sweepAccount t q.2 hi, AccBounds_sweepAccount q.2 hb hTt⟩

theorem Good_mono {T t : ℤ} {s : BankingSystemImpl} (h : Good T s)
    (hTt : T ≤ t) : Good t s := by
  intro p hp
  obtain ⟨hi, hb⟩ := h p hp
  refine ⟨hi, ?_⟩
  intro tx htx
  obtain ⟨h1, h2, h3⟩ := hb tx htx
  exact ⟨fun hne => le_trans (h1 hne) hTt,
    fun ma hma => le_trans (h2 ma hma) hTt,
    fun hcb hdep => le_trans (h3 hcb hdep) hTt⟩

theorem Good_dict_set {t : ℤ} {l : List (String × AccountInfo)} {k : String}
    {v : AccountInfo} (hl : ∀ p ∈ l, AccInv p.2 ∧ AccBounds t p.2)
    (hv : AccInv v ∧ AccBounds t v) :
    ∀ p ∈ dict_set l k v, AccInv p.2 ∧ AccBounds t p.2 := by
  intro p hp
  rcases mem_dict_set hp with rfl | hp'
  · exact hv
  · exact hl p hp'

theorem cashback_ne_deposit : ("cashback" : String) ≠ "deposit" := by decide

theorem startswith_cashback : startswith "cashback" "payment" = false := by decide

/-- When every cashback due by `t` is deposited and every transaction obeys
the clock bounds at `t`, the replay of `get_balance` at `asOf = t`
reproduces exactly the deposited-effect sum: the value of the stored
balance field. -/
theorem replayBalance_eq_depSum (t : ℤ) (txs : List Transaction)
    (hwf : ∀ tx ∈ txs, tx.operation = "cashback" → tx.deposited ≠ none)
    (hb : ∀ tx ∈ txs,
      (tx.operation ≠ "cashback" → tx.timestamp ≤ t) ∧
      (∀ ma ∈ tx.merged_at, ma ≤ t) ∧
      (tx.operation = "cashback" → tx.deposited = some true → tx.timestamp ≤ t))
    (hnd : ∀ tx ∈ txs, ¬ cashbackDue t tx) :
    replayBalance t txs = depSum txs := by
  unfold replayBalance depSum
  congr 1
  refine List.map_congr_left ?_
  intro tx htx
  obtain ⟨hb1, hb2, hb3⟩ := hb tx htx
  by_cases hcb : tx.operation = "cashback"
  · cases hdep : tx.deposited with
    | none => exact absurd hdep (hwf tx htx hcb)
    | some b =>
      cases b with
      | true =>
        have hts : tx.timestamp ≤ t := hb3 hcb hdep
        rw [if_pos (show txCounted t tx from ⟨hts, hb2⟩)]
        unfold txEffect depEffect
        rw [hcb, hdep]
        simp [cashback_ne_deposit, startswith_cashback]
      | false =>
        have hnts : ¬ tx.timestamp ≤ t := fun hts => hnd tx htx ⟨hcb, hts, hdep⟩
        rw [if_neg (fun hc : txCounted t tx => hnts hc.1)]
        unfold depEffect
        rw [if_pos hcb, hdep]
        simp
  · have hts := hb1 hcb
    rw [if_pos (show txCounted t tx from ⟨hts, hb2⟩)]
    unfold depEffect
    rw [if_neg hcb]

theorem depEffect_deposit_tx (t a : ℤ) :
    depEffect { timestamp := t, operation := "deposit", amount := a } = a := by
  unfold depEffect txEffect
  simp

theorem depEffect_transfer_out_tx (t a : ℤ) (tgt : String) :
    depEffect { timestamp := t, operation := "transfer_out", amount := a,
                target := some tgt } = -a := by
  unfold depEffect txEffect
  simp

theorem depEffect_transfer_in_tx (t a : ℤ) (src : String) :
    depEffect { timestamp := t, operation := "transfer_in", amount := a,
                source := some src } = a := by
  unfold depEffect txEffect
  simp

theorem depEffect_tagMerged (b : String) (t : ℤ) (tx : Transaction) :
    depEffect (tagMerged b t tx) = depEffect tx := rfl

theorem depSum_tagMerged (b : String) (t : ℤ) (txs : List Transaction) :
    depSum (txs.map (tagMerged b t)) = depSum txs := by
  unfold depSum
  rw [List.map_map]
  congr 1

/-- The C1 invariant survives one public operation with a timestamp at or
after the current clock. -/
theorem Good_step {T : ℤ} {s : BankingSystemImpl} {op : Op}
    (h : Good T s) (hT : T ≤ opTime op) : Good (opTime op) (applyOp s op) := by
  cases op with
  | create_account t id =>
    simp only [applyOp, create_account, opTime] at hT ⊢
    split
    · split_ifs
      · exact Good_mono h hT
      · intro p hp
        rcases mem_dict_set hp with rfl | hp'
        · refine ⟨⟨rfl, by simp⟩, by intro tx htx; simp at htx⟩
        · exact Good_mono h hT p hp'
    · intro p hp
      rcases mem_dict_set hp with rfl | hp'
      · refine ⟨⟨rfl, by simp⟩, by intro tx htx; simp at htx⟩
      · exact Good_mono h hT p hp'
  | deposit t id a =>
    simp only [applyOp, deposit, opTime] at hT ⊢
    split
    · exact Good_process h hT
    · next account heq =>
      split_ifs
      · exact Good_process h hT
      · have hacc := Good_process h hT _ (dict_get_mem heq)
        intro p hp
        rcases mem_dict_set hp with rfl | hp'
        · constructor
          · constructor
            · show account.balance + a = depSum (account.transactions ++ [_])
              rw [depSum_append, depSum_cons, ← hacc.1.1, depEffect_deposit_tx]
              show _ = _ + (_ + depSum [])
              simp [depSum]
            · intro tx htx
              rcases List.mem_append.mp htx with h' | h'
              · exact hacc.1.2 tx h'
              · simp only [List.mem_singleton] at h'
                subst h'
                intro hcb
                simp at hcb
          · intro tx htx
            rcases List.mem_append.mp htx with h' | h'
            · exact hacc.2 tx h'
            · simp only [List.mem_singleton] at h'
              subst h'
              refine ⟨fun _ => le_refl t, ?_, ?_⟩
              · intro ma hma
                simp at hma
              · intro hcb
                simp at hcb
        · exact Good_process h hT p hp'
  | transfer t src tgt a =>
    simp only [applyOp, transfer, opTime] at hT ⊢
    split
    · next source target hsrc htgt =>
      split_ifs
      · exact Good_process h hT
      · exact Good_process h hT
      · exact Good_process h hT
      · have hs' := Good_process h hT _ (dict_get_mem hsrc)
        have ht' := Good_process h hT _ (dict_get_mem htgt)
        intro p hp
        rcases mem_dict_set hp with rfl | hp'
        · constructor
          · constructor
            · show target.balance + a = depSum (target.transactions ++ [_])
              rw [depSum_append, depSum_cons, ← ht'.1.1, depEffect_transfer_in_tx]
              show _ = _ + (_ + depSum [])
              simp [depSum]
            · intro tx htx
              rcases List.mem_append.mp htx with h' | h'
              · exact ht'.1.2 tx h'
              · simp only [List.mem_singleton] at h'
                subst h'
                intro hcb
                simp at hcb
          · intro tx htx
            rcases List.mem_append.mp htx with h' | h'
            · exact ht'.2 tx h'
            · simp only [List.mem_singleton] at h'
              subst h'
              refine ⟨fun _ => le_refl t, ?_, ?_⟩
              · intro ma hma
                simp at hma
              · intro hcb
                simp at hcb
        · rcases mem_dict_set hp' with rfl | hp''
          · constructor
            · constructor
              · show source.balance - a = depSum (source.transactions ++ [_])
                rw [depSum_append, depSum_cons, ← hs'.1.1, depEffect_transfer_out_tx]
                show _ = _ + (_ + depSum [])
                simp [depSum]
                ring
              · intro tx htx
                rcases List.mem_append.mp htx with h' | h'
                · exact hs'.1.2 tx h'
                · simp only [List.mem_singleton] at h'
                  subst h'
                  intro hcb
                  simp at hcb
            · intro tx htx
              rcases List.mem_append.mp htx with h' | h'
              · exact hs'.2 tx h'
              · simp only [List.mem_singleton] at h'
                subst h'
                refine ⟨fun _ => le_refl t, ?_, ?_⟩
                · intro ma hma
                  simp at hma
                · intro hcb
                  simp at hcb
          · exact Good_process h hT p hp''
    · exact Good_process h hT
  | top_spenders t n => exact Good_process h hT
  | pay t id a =>
    simp only [applyOp, pay, opTime] at hT ⊢
    split
    · exact Good_process h hT
    · next account heq =>
      split_ifs
      · exact Good_process h hT
      · exact Good_process h hT
      · have hacc := Good_process h hT _ (dict_get_mem heq)
        intro p hp
        rcases mem_dict_set hp with rfl | hp'
        · constructor
          · constructor
            · show account.balance - a = depSum (account.transactions ++ [_, _])
              rw [depSum_append, depSum_cons, depSum_cons, ← hacc.1.1]
              rw [depEffect_payment (toString (process_cashbacks t s).payment_counter)
                _ rfl]
              have hcb0 : depEffect
                  { timestamp := t + MILLISECONDS_IN_1_DAY, operation := "cashback",
                    amount := cashback_amount a,
                    related_payment :=
                      some ("payment" ++ toString (process_cashbacks t s).payment_counter),
                    deposited := some false } = 0 := by
                unfold depEffect
                simp
              rw [hcb0]
              show _ = _ + (-a + (0 + depSum []))
              simp [depSum]
              ring
            · intro tx htx
              rcases List.mem_append.mp htx with h' | h'
              · exact hacc.1.2 tx h'
              · simp only [List.mem_cons, List.not_mem_nil, or_false] at h'
                rcases h' with rfl | rfl
                · intro hcb
                  exact absurd hcb (payment_ne_cashback _)
                · intro _
                  simp
          · intro tx htx
            rcases List.mem_append.mp htx with h' | h'
            · exact hacc.2 tx h'
            · simp only [List.mem_cons, List.not_mem_nil, or_false] at h'
              rcases h' with rfl | rfl
              · refine ⟨fun _ => le_refl t, ?_, ?_⟩
                · intro ma hma
                  simp at hma
                · intro hcb
                  exact absurd hcb (payment_ne_cashback _)
              · refine ⟨?_, ?_, ?_⟩
                · intro hne
                  exact absurd rfl hne
                · intro ma hma
                  simp at hma
                · intro _ hdep
                  simp at hdep
        · exact Good_process h hT p hp'
  | get_payment_status t id payment =>
    rw [show applyOp s (.get_payment_status t id payment) =
      process_cashbacks t s from get_payment_status_state t id payment s]
    exact Good_process h hT
  | merge_accounts t a b =>
    simp only [applyOp, merge_accounts, opTime] at hT ⊢
    split_ifs
    · exact Good_process h hT
    · split
      · next account_1 account_2 h1 h2 =>
        split_ifs
        · exact Good_process h hT
        · have ha' := Good_process h hT _ (dict_get_mem h1)
          have hb' := Good_process h hT _ (dict_get_mem h2)
          intro p hp
          rcases mem_dict_set hp with rfl | hp'
          · exact ⟨⟨hb'.1.1, hb'.1.2⟩, hb'.2⟩
          · rcases mem_dict_set hp' with rfl | hp''
            · constructor
              · constructor
                · show account_1.balance + account_2.balance =
                    depSum (account_1.transactions ++ _)
                  rw [depSum_append, depSum_tagMerged, ← ha'.1.1, ← hb'.1.1]
                · intro tx htx
                  rcases List.mem_append.mp htx with h' | h'
                  · exact ha'.1.2 tx h'
                  · rcases List.mem_map.mp h' with ⟨tx0, htx0, rfl⟩
                    exact hb'.1.2 tx0 htx0
              · intro tx htx
                rcases List.mem_append.mp htx with h' | h'
                · exact ha'.2 tx h'
                · rcases List.mem_map.mp h' with ⟨tx0, htx0, rfl⟩
                  obtain ⟨g1, g2, g3⟩ := hb'.2 tx0 htx0
                  refine ⟨g1, ?_, g3⟩
                  intro ma hma
                  simp only [tagMerged, Option.mem_def, Option.some.injEq] at hma
                  omega
            · exact Good_process h hT p hp''
      · exact Good_process h hT
  | get_balance t id time_at =>
    simp only [applyOp, get_balance, opTime] at hT ⊢
    split
    · exact Good_process h hT
    · split_ifs <;> exact Good_process h hT

theorem reaches_good {s : BankingSystemImpl} {T : ℤ} (h : Reaches s T) :
    Good T s := by
  induction h with
  | init T =>
    intro p hp
    simp [initState] at hp
  | step op hr hT ih => exact Good_step ih hT

/-- **C1**.  Start the engine fresh and feed it operations with
non-decreasing timestamps (`Reaches`, the spec §5 input contract).  After
any successful mutating operation (deposit, transfer, pay,
merge_accounts) at timestamp `t`, every active account's stored `balance`
field equals the replay-based reconstruction `get_balance` performs,
evaluated at `asOf = t` (the operation's own sweep having matured every
cashback due by `t`). -/
theorem C1_balance_matches_replay (s : BankingSystemImpl) (T : ℤ) (op : Op)
    (hreach : Reaches s T) (hT : T ≤ opTime op) (hmut : mutatingSuccess s op) :
    ∀ (id : String) (acc : AccountInfo),
      dict_get (applyOp s op).whole_accounts id = some acc →
      acc.merged_at = none →
      acc.balance = replayBalance (opTime op) acc.transactions := by
  intro id acc hget _
  have hnc : ∀ (t' : ℤ) (id' : String), op ≠ .create_account t' id' := by
    intro t' id' hop
    rw [hop] at hmut
    exact hmut
  have hgood : Good (opTime op) (applyOp s op) := Good_step (reaches_good hreach) hT
  have hnd : noDue (opTime op) (applyOp s op).whole_accounts := noDue_applyOp s op hnc
  have hmem := dict_get_mem hget
  obtain ⟨⟨hbal, hwf⟩, hb⟩ := hgood _ hmem
  rw [hbal]
  exact (replayBalance_eq_depSum _ _ hwf hb (hnd _ hmem)).symm

/-- Witness for C1: create `A` at `t=0`, deposit 5 at `t=1`; the stored
balance 5 equals the replay of the single deposit transaction at
`asOf = 1`. -/
theorem C1_balance_matches_replay_witness :
    (5 : ℤ) = replayBalance 1
      [{ timestamp := 1, operation := "deposit", amount := 5 }] :=
  C1_balance_matches_replay (applyOp initState (.create_account 0 "A")) 0
    (.deposit 1 "A" 5)
    (Reaches.step (.create_account 0 "A") (Reaches.init 0) (by decide))
    (by decide)
    (by
      show (deposit 1 "A" 5 (applyOp initState (.create_account 0 "A"))).1 ≠ none
      decide)
    "A"
    ⟨5, [{ timestamp := 1, operation := "deposit", amount := 5 }], 0, none⟩
    (by decide) rfl

/-! ### Sanity checks

Concrete evaluations of the embedding: the `top_spenders` scenario of the
spec, and the float model `cashback_amount` on a spread of inputs (small,
tie-to-even, around `2^53`, huge, negative), each checked against what
CPython's `int(a * 0.02)` returns. -/

example :
    (top_spenders 5 2 (runOps
      [.create_account 1 "A", .create_account 2 "B",
       .deposit 3 "A" 100, .transfer 4 "A" "B" 40])).1 = ["A(40)", "B(0)"] := by
  decide

example : cashback_amount 50 = 1 := by decide

set_option maxRecDepth 100000 in
example : cashback_amount 9007199254740999 = 180143985094820 := by decide

set_option maxRecDepth 100000 in
example :
    [cashback_amount 0, cashback_amount 1, cashback_amount 49, cashback_amount 50,
     cashback_amount 99, cashback_amount 100, cashback_amount 149,
     cashback_amount 1234567, cashback_amount 1000000007,
     cashback_amount 9007199254740992, cashback_amount 9007199254741041,
     cashback_amount 9007199254741091, cashback_amount 1152921504730303765,
     cashback_amount 1000000000000000000,
     cashback_amount (-5), cashback_amount (-50),
     cashback_amount (-9007199254740999), cashback_amount 9007199254741099] =
    [0, 0, 0, 1, 1, 2, 2, 24691, 20000000, 180143985094819, 180143985094820,
     180143985094821, 23058430094606076, 20000000000000000, 0, -1,
     -180143985094820, 180143985094822] := by decide

end Banking
